import Mathlib

/-!
# MLD message scheduling (`net/mld/mld_msg.c`)

A shallow embedding of `mld_schedmsg` and `mld_waitmsg`.

* The group record is a structure; the two functions are total functions
  that return a `Run`: how the call ended, the record it left, every write
  that was made to the record (and by whom), the devices that were notified
  and the number of `net_lockedwait` calls.
* What the rest of the stack does while the caller is inside an external
  call (`netdev_txnotify_dev`, `net_lockedwait`) is given by a `Script`.
* Values that come from headers outside `net/mld/mld_msg.c` (flag bits,
  errno numbers, whether `DEBUGASSERT` is compiled in) are the fields of
  `Config`.

The namespace `STM32PWM` further down embeds the channel configuration of
`arch/arm/src/stm32/stm32_pwm.h`.  All definitions come first, the facts
about them after.
-/

namespace MLD

/-! ## Configuration and data model -/

/-- Constants of the build that `mld_msg.c` takes from headers: the bit
positions of the two group flags, the `errno` numbers it names, the message
type that stands for "nothing pending", and whether `DEBUGASSERT` is
compiled in (`CONFIG_DEBUG_ASSERTIONS`).  The proofs record that the two
flags are different bits and that the error numbers are positive and
pairwise different where the code relies on it. -/
structure Config where
  /-- bit position of the "message scheduled" flag -/
  MLD_SCHEDMSG : Nat
  /-- bit position of the "task waiting" flag -/
  MLD_WAITMSG : Nat
  /-- message type meaning "no message pending" -/
  MLD_SEND_NONE : Nat
  ENODEV : Nat
  EINTR : Nat
  ECANCELED : Nat
  /-- whether `DEBUGASSERT` is compiled in -/
  assertions : Bool
  flags_distinct : MLD_SCHEDMSG ≠ MLD_WAITMSG
  ENODEV_pos : 0 < ENODEV
  EINTR_pos : 0 < EINTR
  ECANCELED_pos : 0 < ECANCELED
  ENODEV_ne_EINTR : ENODEV ≠ EINTR
  ENODEV_ne_ECANCELED : ENODEV ≠ ECANCELED

/-- The value `OK` of a successful call. -/
def OK : Int := 0

/-- Modelled from the spec: the group record (`struct mld_group_s`, declared
in `mld/mld.h`, which is not part of the sources at hand).  The fields are
the ones of the spec's data model that the two functions can see:
interface index, group address, compatibility mode, pending message type,
the flag bit-set and the count of the wait signal. -/
structure mld_group_s where
  ifindex : Nat
  grpaddr : Nat
  compat : Bool
  msgtype : Nat
  flags : Nat
  sem : Nat
deriving DecidableEq, Repr

/-- Modelled from the spec: `IS_MLD_SCHEDMSG(f)`, the "scheduled" bit of the
flag bit-set is set. -/
def IS_MLD_SCHEDMSG (cfg : Config) (f : Nat) : Bool := f.testBit cfg.MLD_SCHEDMSG

/-- Modelled from the spec: `SET_MLD_SCHEDMSG(f)`, `f |= mask`. -/
def SET_MLD_SCHEDMSG (cfg : Config) (f : Nat) : Nat := f ||| (1 <<< cfg.MLD_SCHEDMSG)

/-- Modelled from the spec: `CLR_MLD_SCHEDMSG(f)`, `f &= ~mask`; on an
unsigned `f` that is `f` with the bits of `f & mask` flipped. -/
def CLR_MLD_SCHEDMSG (cfg : Config) (f : Nat) : Nat := f ^^^ (f &&& (1 <<< cfg.MLD_SCHEDMSG))

/-- Modelled from the spec: `IS_MLD_WAITMSG(f)`, the "waiting" bit is set. -/
def IS_MLD_WAITMSG (cfg : Config) (f : Nat) : Bool := f.testBit cfg.MLD_WAITMSG

/-- Modelled from the spec: `SET_MLD_WAITMSG(f)`, `f |= mask`. -/
def SET_MLD_WAITMSG (cfg : Config) (f : Nat) : Nat := f ||| (1 <<< cfg.MLD_WAITMSG)

/-- Modelled from the spec: `CLR_MLD_WAITMSG(f)`, `f &= ~mask`. -/
def CLR_MLD_WAITMSG (cfg : Config) (f : Nat) : Nat := f ^^^ (f &&& (1 <<< cfg.MLD_WAITMSG))

/-- The device table as the two functions see it: `netdev_findbyindex`
maps an interface index to a device (named by a number) or to nothing. -/
structure Devices where
  netdev_findbyindex : Nat → Option Nat

/-! ## The environment -/

/-- What another task of the stack may do to the record while the caller
is inside an external call.  `complete` is the poll-completion of the
spec; `schedule m` is another task scheduling a message for the group. -/
inductive EnvAct where
  | complete
  | schedule (m : Nat)
deriving DecidableEq, Repr

/-- Who wrote to the record. -/
inductive Actor where
  | schedmsg
  | waitmsg
  | lockedwait
  | env (a : EnvAct)
deriving DecidableEq, Repr

/-- One write to the record: who made it, the record before and after. -/
structure Step where
  actor : Actor
  before : mld_group_s
  after : mld_group_s
deriving DecidableEq, Repr

/-- How a call ended: it returned a value, it stopped at a failed
`DEBUGASSERT`, or it is still blocked in `net_lockedwait` when the script
of the environment ends. -/
inductive Status where
  | returned (ret : Int)
  | asserted
  | blocked
deriving DecidableEq, Repr

/-- The outcome of a call. -/
structure Run where
  status : Status
  /-- the record when the call ended -/
  group : mld_group_s
  /-- the writes to the record, in order -/
  steps : List Step
  /-- the devices passed to `netdev_txnotify_dev`, in order -/
  notified : List Nat
  /-- the number of `net_lockedwait` calls that were made -/
  waits : Nat
deriving DecidableEq, Repr

/-- Modelled from the spec: `complete(record)` of §4.3 (the code is in the
poll path, outside `mld_msg.c`).  It clears the scheduled flag and the
pending message type and, if the waiting flag is set, releases exactly one
unit of the wait signal, leaving the waiting flag alone. -/
def complete (cfg : Config) (g : mld_group_s) : mld_group_s :=
  let g1 := { g with flags := CLR_MLD_SCHEDMSG cfg g.flags, msgtype := cfg.MLD_SEND_NONE }
  if IS_MLD_WAITMSG cfg g1.flags then { g1 with sem := g1.sem + 1 } else g1

/-- The effect of one action of the environment on the record. -/
def EnvAct.apply (cfg : Config) : EnvAct → mld_group_s → mld_group_s
  | .complete, g => MLD.complete cfg g
  | .schedule m, g => { g with msgtype := m, flags := SET_MLD_SCHEDMSG cfg g.flags }

/-- The record after a list of actions of the environment. -/
def runEnv (cfg : Config) : List EnvAct → mld_group_s → mld_group_s
  | [], g => g
  | a :: as, g => runEnv cfg as (a.apply cfg g)

/-- The writes made by a list of actions of the environment. -/
def envSteps (cfg : Config) : List EnvAct → mld_group_s → List Step
  | [], _ => []
  | a :: as, g => ⟨.env a, g, a.apply cfg g⟩ :: envSteps cfg as (a.apply cfg g)

/-! ## `mld_schedmsg` -/

/-- The function `mld_schedmsg(group, msgtype)`.

```
DEBUGASSERT(group != NULL && !IS_MLD_SCHEDMSG(group->flags));
DEBUGASSERT(group->ifindex > 0);
dev = netdev_findbyindex(group->ifindex);
if (dev == NULL) return -ENODEV;
group->msgtype = msgtype;
SET_MLD_SCHEDMSG(group->flags);
netdev_txnotify_dev(dev);
return OK;
```

The notification is the last thing the function does; it is recorded in
`notified`.  These are the statements of the function: the record of the
result is the record with which `netdev_txnotify_dev` is called.  What the
driver does to the record inside that call, before `return OK`, is added
by `mld_schedmsg_call`. -/
def mld_schedmsg (cfg : Config) (devs : Devices) (group : mld_group_s) (msgtype : Nat) : Run :=
  if cfg.assertions && IS_MLD_SCHEDMSG cfg group.flags then
    ⟨.asserted, group, [], [], 0⟩
  else if cfg.assertions && !(decide (0 < group.ifindex)) then
    ⟨.asserted, group, [], [], 0⟩
  else
    match devs.netdev_findbyindex group.ifindex with
    | none => ⟨.returned (-(cfg.ENODEV : Int)), group, [], [], 0⟩
    | some dev =>
      let g1 := { group with msgtype := msgtype }
      let g2 := { g1 with flags := SET_MLD_SCHEDMSG cfg g1.flags }
      ⟨.returned OK, g2, [⟨.schedmsg, group, g1⟩, ⟨.schedmsg, g1, g2⟩], [dev], 0⟩

/-! ## `net_lockedwait` and `mld_waitmsg` -/

/-- How one `net_lockedwait` ends: a unit of the wait signal is taken (the
call returns `OK`), the wait is interrupted by a signal (`-EINTR`), it is
canceled (`-ECANCELED`), or it fails in another way and returns the
negative value `-(n+1)`. -/
inductive Wake where
  | taken
  | interrupted
  | canceled
  | failed (n : Nat)
deriving DecidableEq, Repr

/-- One `net_lockedwait`: the network lock is released for the time of the
wait, so other tasks act on the record (`env`), then the wait ends. -/
structure WaitEvent where
  env : List EnvAct
  wake : Wake
deriving DecidableEq, Repr

/-- What the environment does during one call of `mld_waitmsg`: what the
driver does to the record inside `netdev_txnotify_dev` (nothing when the
driver defers the poll), and the waits in the order they are made. -/
structure Script where
  txavail : List EnvAct
  waits : List WaitEvent
deriving DecidableEq, Repr

/-- Modelled from the spec: `net_lockedwait(&group->sem)`, the lock-aware
wait of §5/§6 on the counting wait signal.  The other tasks run, then the
wait ends as the event says.  Taking a unit needs a unit: with none
available the task stays blocked (`none`). -/
def net_lockedwait (cfg : Config) (e : WaitEvent) (g : mld_group_s) : Option (Int × mld_group_s) :=
  let g1 := runEnv cfg e.env g
  match e.wake with
  | .taken => if 0 < g1.sem then some (OK, { g1 with sem := g1.sem - 1 }) else none
  | .interrupted => some (-(cfg.EINTR : Int), g1)
  | .canceled => some (-(cfg.ECANCELED : Int), g1)
  | .failed n => some (Int.negSucc n, g1)

/-- The writes made during one `net_lockedwait`: those of the other tasks
and, when a unit is taken, the decrement of the count. -/
def waitSteps (cfg : Config) (e : WaitEvent) (g : mld_group_s) : List Step :=
  let g1 := runEnv cfg e.env g
  envSteps cfg e.env g ++
    (match e.wake with
     | .taken => if 0 < g1.sem then [⟨.lockedwait, g1, { g1 with sem := g1.sem - 1 }⟩] else []
     | _ => [])

/-- Put the writes, notifications and waits of `a` in front of those of
`b`; the status and the final record are those of `b`. -/
def Run.seq (a b : Run) : Run :=
  ⟨b.status, b.group, a.steps ++ b.steps, a.notified ++ b.notified, a.waits + b.waits⟩

/-- The label `errout` of `mld_waitmsg`:
`CLR_MLD_WAITMSG(group->flags); return ret;`. -/
def errout (cfg : Config) (ret : Int) (g : mld_group_s) : Run :=
  let g1 := { g with flags := CLR_MLD_WAITMSG cfg g.flags }
  ⟨.returned ret, g1, [⟨.waitmsg, g, g1⟩], [], 0⟩

/-- The two nested loops of `mld_waitmsg`, entered at the inner one (the
scheduled flag has just been seen set):

```
while (IS_MLD_SCHEDMSG(group->flags))
  {
    while ((ret = net_lockedwait(&group->sem)) < 0)
      {
        DEBUGASSERT(ret == -EINTR || ret == -ECANCELED);
        if (ret != -EINTR && ret != -ECANCELED) break;
        ret = OK;
      }
  }
errout: ...
```

After `-EINTR`/`-ECANCELED` the inner loop calls `net_lockedwait` again;
after a success or a `break` the outer condition is evaluated, and the
function goes to `errout` when the flag is clear.  The recursion is on the
waits that the script still holds: with none left the task is blocked. -/
def wait_loop (cfg : Config) : List WaitEvent → mld_group_s → Run
  | [], g => ⟨.blocked, g, [], [], 0⟩
  | e :: rest, g =>
    match net_lockedwait cfg e g with
    | none => ⟨.blocked, runEnv cfg e.env g, waitSteps cfg e g, [], 1⟩
    | some (ret, g2) =>
      let waited : Run := ⟨.blocked, g2, waitSteps cfg e g, [], 1⟩
      let outer (ret : Int) : Run :=
        if IS_MLD_SCHEDMSG cfg g2.flags then wait_loop cfg rest g2 else errout cfg ret g2
      if ret < 0 then
        if cfg.assertions && !(ret == -(cfg.EINTR : Int) || ret == -(cfg.ECANCELED : Int)) then
          waited.seq ⟨.asserted, g2, [], [], 0⟩
        else if ret != -(cfg.EINTR : Int) && ret != -(cfg.ECANCELED : Int) then
          waited.seq (outer ret)
        else
          waited.seq (wait_loop cfg rest g2)
      else
        waited.seq (outer ret)

/-- The outer `while` of `mld_waitmsg` from its first test on, followed by
`errout`; `ret` is the value the variable holds on entry. -/
def sched_loop (cfg : Config) (waits : List WaitEvent) (ret : Int) (g : mld_group_s) : Run :=
  if IS_MLD_SCHEDMSG cfg g.flags then wait_loop cfg waits g else errout cfg ret g

/-- The function `mld_waitmsg(group, msgtype)`.

```
DEBUGASSERT(!IS_MLD_WAITMSG(group->flags));
SET_MLD_WAITMSG(group->flags);
ret = mld_schedmsg(group, msgtype);
if (ret < 0) goto errout;
while (IS_MLD_SCHEDMSG(group->flags)) { ... }
errout:
CLR_MLD_WAITMSG(group->flags);
return ret;
```

What the driver does to the record inside `netdev_txnotify_dev`
(`script.txavail`) is applied to the record that `mld_schedmsg` leaves:
the notification is the last statement of `mld_schedmsg`, and
`mld_waitmsg` does not look at the record between that statement and the
first test of the loop. -/
def mld_waitmsg (cfg : Config) (devs : Devices) (script : Script)
    (group : mld_group_s) (msgtype : Nat) : Run :=
  if cfg.assertions && IS_MLD_WAITMSG cfg group.flags then
    ⟨.asserted, group, [], [], 0⟩
  else
    let g1 := { group with flags := SET_MLD_WAITMSG cfg group.flags }
    let first : Run := ⟨.blocked, g1, [⟨.waitmsg, group, g1⟩], [], 0⟩
    let s := mld_schedmsg cfg devs g1 msgtype
    match s.status with
    | .returned ret =>
      if ret < 0 then
        (first.seq s).seq (errout cfg ret s.group)
      else
        let g2 := runEnv cfg script.txavail s.group
        let polled : Run := ⟨.blocked, g2, envSteps cfg script.txavail s.group, [], 0⟩
        ((first.seq s).seq polled).seq (sched_loop cfg script.waits ret g2)
    | _ => first.seq s

/-- The call `mld_schedmsg(group, msgtype)` from entry to return, with a
driver that does `txavail` to the record inside `netdev_txnotify_dev`
(nothing when it defers the poll, a `complete` when it polls at once and
sends the message): the statements of `mld_schedmsg` and, when the
notification is made, the writes of the driver, after which the function
returns.  The record of the result is the record on return. -/
def mld_schedmsg_call (cfg : Config) (devs : Devices) (txavail : List EnvAct)
    (group : mld_group_s) (msgtype : Nat) : Run :=
  let s := mld_schedmsg cfg devs group msgtype
  match s.notified with
  | [] => s
  | _ :: _ =>
    s.seq ⟨s.status, runEnv cfg txavail s.group, envSteps cfg txavail s.group, [], 0⟩

/-! ## A concrete build

Values on which the functions are evaluated in the examples: bit 4 for
`MLD_SCHEDMSG` and bit 5 for `MLD_WAITMSG`, and the usual numbers of
`errno.h`: `ENODEV` 19, `EINTR` 4, `ECANCELED` 125. -/

/-- A build with these values, with or without `DEBUGASSERT`. -/
def nuttx (assertions : Bool) : Config where
  MLD_SCHEDMSG := 4
  MLD_WAITMSG := 5
  MLD_SEND_NONE := 0
  ENODEV := 19
  EINTR := 4
  ECANCELED := 125
  assertions := assertions
  flags_distinct := by decide
  ENODEV_pos := by decide
  EINTR_pos := by decide
  ECANCELED_pos := by decide
  ENODEV_ne_EINTR := by decide
  ENODEV_ne_ECANCELED := by decide

/-- A device table with one device, number 7, at interface index 1. -/
def oneDev : Devices := ⟨fun i => if i = 1 then some 7 else none⟩

/-- A device table without devices. -/
def noDev : Devices := ⟨fun _ => none⟩

/-- A fresh record on interface 1: no flags, nothing pending, no unit of
the wait signal. -/
def fresh : mld_group_s := ⟨1, 0xff02, false, 0, 0, 0⟩

/-! ## Notions used to state the properties -/

/-- The two assertions of `mld_schedmsg` hold or are compiled out. -/
def schedmsg_asserts (cfg : Config) (g : mld_group_s) : Bool :=
  !cfg.assertions || (!IS_MLD_SCHEDMSG cfg g.flags && decide (0 < g.ifindex))

/-- The record after the first statement of `mld_waitmsg`: the waiting
flag is set. -/
def waiting (cfg : Config) (g : mld_group_s) : mld_group_s :=
  { g with flags := SET_MLD_WAITMSG cfg g.flags }

/-- Scheduling succeeded in the call `mld_waitmsg(group, m)`: the assertion
of `mld_waitmsg` let the call through, and the nested `mld_schedmsg`
returned `OK`. -/
def scheduling_succeeded (cfg : Config) (devs : Devices) (g : mld_group_s) (m : Nat) : Bool :=
  !(cfg.assertions && IS_MLD_WAITMSG cfg g.flags) &&
    decide ((mld_schedmsg cfg devs (waiting cfg g) m).status = .returned OK)

/-- The record on which the loop of `mld_waitmsg` makes its first test
after a successful scheduling: waiting flag set, message type written,
scheduled flag set, and then whatever the driver did inside the
notification. -/
def scheduled (cfg : Config) (script : Script) (g : mld_group_s) (m : Nat) : mld_group_s :=
  runEnv cfg script.txavail
    { waiting cfg g with msgtype := m, flags := SET_MLD_SCHEDMSG cfg (waiting cfg g).flags }

/-- A record of interface 1 with a Report (131) pending: the scheduled
flag (bit 4) is set. -/
def pendingReport : mld_group_s := ⟨1, 0xff02, false, 131, 16, 0⟩

/-- What the last wait of a returning loop was, and the value returned: a
unit was taken and the value is `OK`, or (only without `DEBUGASSERT`) the
wait failed with something else than `-EINTR`/`-ECANCELED` and the value
is that of the wait. -/
def lastWaitGives (cfg : Config) (e : WaitEvent) (ret : Int) : Prop :=
  match e.wake with
  | .taken => ret = OK
  | .failed n =>
    ret = Int.negSucc n ∧ cfg.assertions = false ∧
      ret ≠ -(cfg.EINTR : Int) ∧ ret ≠ -(cfg.ECANCELED : Int)
  | .interrupted => False
  | .canceled => False

instance lastWaitGives.decidable (cfg : Config) (e : WaitEvent) (ret : Int) :
    Decidable (lastWaitGives cfg e ret) := by
  unfold lastWaitGives
  split <;> infer_instance

/-- A wait during which the other tasks leave the record alone and which
ends with Interrupted or Canceled. -/
def WaitEvent.spurious (e : WaitEvent) : Prop :=
  e.env = [] ∧ (e.wake = .interrupted ∨ e.wake = .canceled)

instance WaitEvent.spurious.decidable (e : WaitEvent) : Decidable e.spurious := by
  unfold WaitEvent.spurious
  infer_instance

/-- The steps are consecutive: they lead from the record `g` to the
record `g2`. -/
def chained : mld_group_s → List Step → mld_group_s → Prop
  | g, [], g2 => g = g2
  | g, s :: ss, g2 => s.before = g ∧ chained s.after ss g2

instance chained.decidable :
    (g : mld_group_s) → (ss : List Step) → (g2 : mld_group_s) → Decidable (chained g ss g2)
  | g, [], g2 => inferInstanceAs (Decidable (g = g2))
  | g, s :: ss, g2 =>
    @instDecidableAnd _ _ (inferInstanceAs (Decidable (s.before = g)))
      (chained.decidable s.after ss g2)

/-- A step that takes the scheduled flag from set to clear is the
environment's `complete`. -/
def Step.clearsOnlyByComplete (cfg : Config) (s : Step) : Prop :=
  IS_MLD_SCHEDMSG cfg s.before.flags = true → IS_MLD_SCHEDMSG cfg s.after.flags = false →
    s.actor = .env .complete ∧ s.after = complete cfg s.before

instance Step.clearsOnlyByComplete.decidable (cfg : Config) (s : Step) :
    Decidable (s.clearsOnlyByComplete cfg) := by
  unfold Step.clearsOnlyByComplete
  infer_instance

/-- The writes of a run are consecutive from `g` to the final record, and
none but a `complete` of the environment clears the scheduled flag. -/
def Run.traceOk (cfg : Config) (g : mld_group_s) (r : Run) : Prop :=
  chained g r.steps r.group ∧ ∀ s ∈ r.steps, s.clearsOnlyByComplete cfg

instance Run.traceOk.decidable (cfg : Config) (g : mld_group_s) (r : Run) :
    Decidable (r.traceOk cfg g) := by
  unfold Run.traceOk
  infer_instance

/-- The record on which the loop of `mld_waitmsg` makes its first test when
the driver leaves the record alone inside the notification: waiting flag
set, message type written, scheduled flag set. -/
def entered (cfg : Config) (g : mld_group_s) (m : Nat) : mld_group_s :=
  scheduled cfg ⟨[], []⟩ g m

end MLD

/-! # PWM channel configuration (`arch/arm/src/stm32/stm32_pwm.h`)

The part of the header that works out, per timer, which output channels
are configured and how many (`PWM_TIMn_NCHANNELS`).  The header is a
preprocessor program: its input is the set of configuration macros, its
output the macros it defines, or a compile-time error (`#error`). -/

namespace STM32PWM

/-- The configuration macros that this part of the header reads. -/
structure Configuration where
  /-- whether `CONFIG_PWM_MULTICHAN` is defined -/
  PWM_MULTICHAN : Bool
  /-- whether `CONFIG_STM32_PWM_MULTICHAN` is defined -/
  STM32_PWM_MULTICHAN : Bool
  /-- whether `CONFIG_STM32_TIMn` is defined -/
  STM32_TIM : Nat → Bool
  /-- whether `CONFIG_STM32_TIMn_PWM` is defined -/
  STM32_TIM_PWM : Nat → Bool
  /-- the integer that `CONFIG_STM32_TIMn_CHANNEL` is defined as, when it is defined -/
  STM32_TIM_CHANNEL : Nat → Option Int
  /-- whether `CONFIG_STM32_TIMn_CHANNELk` is defined -/
  STM32_TIM_CHANNELk : Nat → Nat → Bool

/-- The timers that have a block in the header (timers 6 and 7 have none:
their `_PWM` macro is always undefined, lines 114-115). -/
def timers : List Nat := [1, 2, 3, 4, 5, 8, 9, 10, 11, 12, 13, 14, 15, 16, 17]

/-- The number of output channels that the blocks of timer `n` go
through: channels 1 to 4 for timers 1-5 and 8, channels 1 and 2 for timers
9, 12 and 15, channel 1 for timers 10, 11, 13, 14, 16 and 17. -/
def timer_channels (n : Nat) : Nat :=
  if n ∈ [1, 2, 3, 4, 5, 8] then 4
  else if n ∈ [9, 12, 15] then 2
  else if n ∈ [10, 11, 13, 14, 16, 17] then 1
  else 0

/-- Lines 66-115: `CONFIG_STM32_TIMn_PWM` is still defined after the
`#undef`s, i.e. timer `n` is enabled for PWM. -/
def TIM_PWM (cfg : Configuration) (n : Nat) : Bool :=
  decide (n ∈ timers) && cfg.STM32_TIM n && cfg.STM32_TIM_PWM n

/-- Line 119: the condition of the `#if` around the body of the header,
some timer is enabled for PWM. -/
def any_TIM_PWM (cfg : Configuration) : Bool :=
  timers.any (TIM_PWM cfg)

/-- The `#error`s of this part of the header. -/
inductive Diagnostic where
  /-- the error "CONFIG_STM32_PWM_MULTICHAN enabled but CONFIG_PWM_MULTICHAN not set!" -/
  | multichan_not_set
  /-- the error "CONFIG_STM32_TIMn_CHANNEL must be provided" -/
  | channel_missing (n : Nat)
  /-- the error "Unsupported value of CONFIG_STM32_TIMn_CHANNEL" -/
  | channel_unsupported (n : Nat)
deriving DecidableEq, Repr

/-- The macros of one timer after the header: which
`CONFIG_STM32_TIMn_CHANNELk` are defined, which
`CONFIG_STM32_TIMn_CHkMODE` the header has defined, the value of
`PWM_TIMn_CHANNELk` and of `PWM_TIMn_NCHANNELS` where defined. -/
structure TimerDefs where
  CHANNELk : Nat → Bool
  CHkMODE : Nat → Bool
  PWM_CHANNELk : Nat → Option Nat
  NCHANNELS : Option Nat

/-- Multi-channel mode, `PWM_TIMn_CHANNELk`: 1 when
`CONFIG_STM32_TIMn_CHANNELk` is defined, else 0 (lines 139-158 for timer 1,
and so on). -/
def PWM_TIM_CHANNEL (cfg : Configuration) (n k : Nat) : Nat :=
  if cfg.STM32_TIM_CHANNELk n k then 1 else 0

/-- Multi-channel mode, `PWM_TIMn_NCHANNELS`: the sum written in the
`#define` of the timer (four terms for timers 1-5 and 8, two for timers 9,
12 and 15, one for timers 10, 11, 13, 14, 16 and 17). -/
def PWM_TIM_NCHANNELS (cfg : Configuration) (n : Nat) : Option Nat :=
  if n ∈ [1, 2, 3, 4, 5, 8] then
    some (PWM_TIM_CHANNEL cfg n 1 + PWM_TIM_CHANNEL cfg n 2 +
          PWM_TIM_CHANNEL cfg n 3 + PWM_TIM_CHANNEL cfg n 4)
  else if n ∈ [9, 12, 15] then
    some (PWM_TIM_CHANNEL cfg n 1 + PWM_TIM_CHANNEL cfg n 2)
  else if n ∈ [10, 11, 13, 14, 16, 17] then
    some (PWM_TIM_CHANNEL cfg n 1)
  else none

/-- Multi-channel mode, the macros of timer `n` (lines 137-353): the
configuration's `CONFIG_STM32_TIMn_CHANNELk` are left as they are, and
`PWM_TIMn_CHANNELk` and `PWM_TIMn_NCHANNELS` are defined. -/
def multi_block (cfg : Configuration) (n : Nat) : TimerDefs where
  CHANNELk := cfg.STM32_TIM_CHANNELk n
  CHkMODE := fun _ => false
  PWM_CHANNELk := fun k =>
    if 1 ≤ k ∧ k ≤ timer_channels n then some (PWM_TIM_CHANNEL cfg n k) else none
  NCHANNELS := PWM_TIM_NCHANNELS cfg n

/-- Single-channel mode: the values that the `#elif` chain of the block of
timer `n` compares `CONFIG_STM32_TIMn_CHANNEL` with. -/
def tested_values (n : Nat) : List Int :=
  if n ∈ [1, 2, 3, 4, 5, 8] then [1, 2, 3, 4]
  else if n ∈ [9, 12, 15] then [1, 2]
  else if n ∈ [10, 11, 13, 14, 16, 17] then [1]
  else []

/-- The value that the preprocessor compares in `#if` and `#elif`: integer
arithmetic there is done in 64 bits (`intmax_t`, `uintmax_t`), and a
constant that does not fit is reduced modulo 2^64 (the compiler warns and
goes on).  The result is given as the residue in `0 .. 2^64 - 1`; for the
comparisons with 1, 2, 3 and 4 it does not matter whether the 64 bits are
read as signed or unsigned. -/
def pp_value (v : Int) : Int := v % 18446744073709551616

/-- Single-channel mode, the block of timer `n` (lines 370-611):

```
  ifdef CONFIG_STM32_TIMn_PWM
    if !defined(CONFIG_STM32_TIMn_CHANNEL)
      error "CONFIG_STM32_TIMn_CHANNEL must be provided"
    elif CONFIG_STM32_TIMn_CHANNEL == 1
      define CONFIG_STM32_TIMn_CHANNEL1 1
      define CONFIG_STM32_TIMn_CH1MODE CONFIG_STM32_TIMn_CHMODE
    elif ... (one branch for each channel of the timer)
    else
      error "Unsupported value of CONFIG_STM32_TIMn_CHANNEL"
    endif
    define PWM_TIMn_NCHANNELS 1
  endif
```

The comparisons are made on `pp_value` of the configured value, and the
branch taken defines the macros of the channel that this value is.  A
timer that is not enabled for PWM gets nothing defined. -/
def single_block (cfg : Configuration) (n : Nat) : Except Diagnostic TimerDefs :=
  if TIM_PWM cfg n then
    match cfg.STM32_TIM_CHANNEL n with
    | none => .error (.channel_missing n)
    | some v =>
      if pp_value v ∈ tested_values n then
        .ok { CHANNELk := fun k => decide ((k : Int) = pp_value v) || cfg.STM32_TIM_CHANNELk n k
              CHkMODE := fun k => decide ((k : Int) = pp_value v)
              PWM_CHANNELk := fun _ => none
              NCHANNELS := some 1 }
      else .error (.channel_unsupported n)
  else
    .ok { CHANNELk := cfg.STM32_TIM_CHANNELk n
          CHkMODE := fun _ => false
          PWM_CHANNELk := fun _ => none
          NCHANNELS := none }

/-- The diagnostic of a block, if it has one. -/
def diagnostic (b : Except Diagnostic TimerDefs) : Option Diagnostic :=
  match b with
  | .error d => some d
  | .ok _ => none

/-- The macros that a block leaves (those of the configuration when the
block stops at an `#error`). -/
def defs_of (cfg : Configuration) (n : Nat) (b : Except Diagnostic TimerDefs) : TimerDefs :=
  match b with
  | .ok tm => tm
  | .error _ =>
    { CHANNELk := cfg.STM32_TIM_CHANNELk n, CHkMODE := fun _ => false,
      PWM_CHANNELk := fun _ => none, NCHANNELS := none }

/-- What the preprocessor makes of this part of the header: it stops at an
`#error`, or the body is skipped because no timer is enabled for PWM, or
the macros of every timer are defined. -/
inductive Outcome where
  | rejected (d : Diagnostic)
  | skipped
  | defined (timer : Nat → TimerDefs)

/-- This part of the header (lines 66-613): the guard of line 119, the
check of `CONFIG_STM32_PWM_MULTICHAN` (lines 131-135), then the
multi-channel blocks or the single-channel blocks of all timers, in the
order of the file; the first `#error` met stops the compilation. -/
def stm32_pwm_h (cfg : Configuration) : Outcome :=
  if !any_TIM_PWM cfg then .skipped
  else if cfg.STM32_PWM_MULTICHAN && !cfg.PWM_MULTICHAN then .rejected .multichan_not_set
  else if cfg.PWM_MULTICHAN then .defined (multi_block cfg)
  else
    match timers.findSome? (fun n => diagnostic (single_block cfg n)) with
    | some d => .rejected d
    | none => .defined (fun n => defs_of cfg n (single_block cfg n))

/-- The `#error` at which the preprocessor stops, if it does. -/
def Outcome.diagnostic : Outcome → Option Diagnostic
  | .rejected d => some d
  | _ => none

/-- The number of `CONFIG_STM32_TIMn_CHANNELk` that the configuration
defines among the channels `1 .. timer_channels n` of timer `n`. -/
def defined_channels (cfg : Configuration) (n : Nat) : Nat :=
  (List.range' 1 (timer_channels n)).countP (cfg.STM32_TIM_CHANNELk n)

/-- A single-channel configuration in which only timer `n` is enabled for
PWM, with `CONFIG_STM32_TIMn_CHANNEL` as given. -/
def singleChannel (n : Nat) (channel : Option Int) : Configuration where
  PWM_MULTICHAN := false
  STM32_PWM_MULTICHAN := false
  STM32_TIM := fun i => i = n
  STM32_TIM_PWM := fun i => i = n
  STM32_TIM_CHANNEL := fun i => if i = n then channel else none
  STM32_TIM_CHANNELk := fun _ _ => false

/-- A single-channel configuration in which timer 1 is enabled for PWM with
`CONFIG_STM32_TIM1_CHANNEL` 1, and which defines
`CONFIG_STM32_TIM1_CHANNEL2` itself. -/
def presetChannel : Configuration where
  PWM_MULTICHAN := false
  STM32_PWM_MULTICHAN := false
  STM32_TIM := fun i => i = 1
  STM32_TIM_PWM := fun i => i = 1
  STM32_TIM_CHANNEL := fun i => if i = 1 then some 1 else none
  STM32_TIM_CHANNELk := fun i k => i = 1 && k = 2

/-- A multi-channel configuration in which timers 1 and 9 are enabled for
PWM, with channels 1, 2 and 4 of timer 1 and channel 2 of timer 9. -/
def multiChannel : Configuration where
  PWM_MULTICHAN := true
  STM32_PWM_MULTICHAN := true
  STM32_TIM := fun i => i = 1 || i = 9
  STM32_TIM_PWM := fun i => i = 1 || i = 9
  STM32_TIM_CHANNEL := fun _ => none
  STM32_TIM_CHANNELk := fun i k => (i = 1 && (k = 1 || k = 2 || k = 4)) || (i = 9 && k = 2)

end STM32PWM

namespace MLD

/-! ## Facts about the flag bits -/

theorem testBit_setbit (f b i : Nat) :
    (f ||| (1 <<< b)).testBit i = (f.testBit i || decide (b = i)) := by
  rw [Nat.testBit_or, Nat.one_shiftLeft, Nat.testBit_two_pow]

theorem testBit_clrbit (f b i : Nat) :
    (f ^^^ (f &&& (1 <<< b))).testBit i = (f.testBit i && !decide (b = i)) := by
  rw [Nat.testBit_xor, Nat.testBit_and, Nat.one_shiftLeft, Nat.testBit_two_pow]
  by_cases h : b = i <;> simp [h]

@[simp]
theorem is_sched_set_sched (cfg : Config) (f : Nat) :
    IS_MLD_SCHEDMSG cfg (SET_MLD_SCHEDMSG cfg f) = true := by
  simp only [IS_MLD_SCHEDMSG, SET_MLD_SCHEDMSG, testBit_setbit]
  simp

@[simp]
theorem is_sched_clr_sched (cfg : Config) (f : Nat) :
    IS_MLD_SCHEDMSG cfg (CLR_MLD_SCHEDMSG cfg f) = false := by
  simp only [IS_MLD_SCHEDMSG, CLR_MLD_SCHEDMSG, testBit_clrbit]
  simp

@[simp]
theorem is_sched_set_wait (cfg : Config) (f : Nat) :
    IS_MLD_SCHEDMSG cfg (SET_MLD_WAITMSG cfg f) = IS_MLD_SCHEDMSG cfg f := by
  have h := cfg.flags_distinct
  simp only [IS_MLD_SCHEDMSG, SET_MLD_WAITMSG, testBit_setbit]
  simp [Ne.symm h]

@[simp]
theorem is_sched_clr_wait (cfg : Config) (f : Nat) :
    IS_MLD_SCHEDMSG cfg (CLR_MLD_WAITMSG cfg f) = IS_MLD_SCHEDMSG cfg f := by
  have h := cfg.flags_distinct
  simp only [IS_MLD_SCHEDMSG, CLR_MLD_WAITMSG, testBit_clrbit]
  simp [Ne.symm h]

@[simp]
theorem is_wait_set_wait (cfg : Config) (f : Nat) :
    IS_MLD_WAITMSG cfg (SET_MLD_WAITMSG cfg f) = true := by
  simp only [IS_MLD_WAITMSG, SET_MLD_WAITMSG, testBit_setbit]
  simp

@[simp]
theorem is_wait_clr_wait (cfg : Config) (f : Nat) :
    IS_MLD_WAITMSG cfg (CLR_MLD_WAITMSG cfg f) = false := by
  simp only [IS_MLD_WAITMSG, CLR_MLD_WAITMSG, testBit_clrbit]
  simp

@[simp]
theorem is_wait_set_sched (cfg : Config) (f : Nat) :
    IS_MLD_WAITMSG cfg (SET_MLD_SCHEDMSG cfg f) = IS_MLD_WAITMSG cfg f := by
  have h := cfg.flags_distinct
  simp only [IS_MLD_WAITMSG, SET_MLD_SCHEDMSG, testBit_setbit]
  simp [h]

@[simp]
theorem is_wait_clr_sched (cfg : Config) (f : Nat) :
    IS_MLD_WAITMSG cfg (CLR_MLD_SCHEDMSG cfg f) = IS_MLD_WAITMSG cfg f := by
  have h := cfg.flags_distinct
  simp only [IS_MLD_WAITMSG, CLR_MLD_SCHEDMSG, testBit_clrbit]
  simp [h]

/-- Setting and then clearing the waiting bit gives back a bit-set in
which the bit was clear. -/
theorem clr_wait_set_wait (cfg : Config) (f : Nat) (h : IS_MLD_WAITMSG cfg f = false) :
    CLR_MLD_WAITMSG cfg (SET_MLD_WAITMSG cfg f) = f := by
  apply Nat.eq_of_testBit_eq
  intro i
  simp only [CLR_MLD_WAITMSG, SET_MLD_WAITMSG, testBit_clrbit, testBit_setbit]
  by_cases hi : cfg.MLD_WAITMSG = i
  · subst hi
    simpa [IS_MLD_WAITMSG] using h
  · simp [hi]

/-- Setting the scheduled bit changes no other bit. -/
theorem testBit_set_sched (cfg : Config) (f i : Nat) (hi : i ≠ cfg.MLD_SCHEDMSG) :
    (SET_MLD_SCHEDMSG cfg f).testBit i = f.testBit i := by
  simp only [SET_MLD_SCHEDMSG, testBit_setbit]
  simp [Ne.symm hi]

/-! ## Facts about `mld_schedmsg` -/

theorem mld_schedmsg_asserted (cfg : Config) (devs : Devices) (g : mld_group_s) (m : Nat)
    (h : schedmsg_asserts cfg g = false) :
    mld_schedmsg cfg devs g m = ⟨.asserted, g, [], [], 0⟩ := by
  unfold mld_schedmsg
  unfold schedmsg_asserts at h
  cases ha : cfg.assertions <;> cases hs : IS_MLD_SCHEDMSG cfg g.flags <;>
    simp_all

theorem mld_schedmsg_none (cfg : Config) (devs : Devices) (g : mld_group_s) (m : Nat)
    (h : schedmsg_asserts cfg g = true) (hdev : devs.netdev_findbyindex g.ifindex = none) :
    mld_schedmsg cfg devs g m = ⟨.returned (-(cfg.ENODEV : Int)), g, [], [], 0⟩ := by
  unfold mld_schedmsg
  unfold schedmsg_asserts at h
  cases ha : cfg.assertions <;> cases hs : IS_MLD_SCHEDMSG cfg g.flags <;>
    simp_all

theorem mld_schedmsg_some (cfg : Config) (devs : Devices) (g : mld_group_s) (m dev : Nat)
    (h : schedmsg_asserts cfg g = true) (hdev : devs.netdev_findbyindex g.ifindex = some dev) :
    mld_schedmsg cfg devs g m =
      ⟨.returned OK, { g with msgtype := m, flags := SET_MLD_SCHEDMSG cfg g.flags },
        [⟨.schedmsg, g, { g with msgtype := m }⟩,
         ⟨.schedmsg, { g with msgtype := m },
            { g with msgtype := m, flags := SET_MLD_SCHEDMSG cfg g.flags }⟩], [dev], 0⟩ := by
  unfold mld_schedmsg
  unfold schedmsg_asserts at h
  cases ha : cfg.assertions <;> cases hs : IS_MLD_SCHEDMSG cfg g.flags <;>
    simp_all

/-! ## Properties of `mld_schedmsg` -/

/-- The statements of `mld_schedmsg` on the success path: on a record whose
scheduled flag is clear and whose interface index is not zero, when the
lookup finds a device, they end with `OK`, and the record with which the
device is notified has `msgtype = m` and the scheduled flag set. -/
theorem mld_schedmsg_statements_ok (cfg : Config) (devs : Devices) (group : mld_group_s)
    (m dev : Nat)
    (hclear : IS_MLD_SCHEDMSG cfg group.flags = false)
    (hif : group.ifindex ≠ 0)
    (hdev : devs.netdev_findbyindex group.ifindex = some dev) :
    (mld_schedmsg cfg devs group m).status = .returned OK ∧
    (mld_schedmsg cfg devs group m).group.msgtype = m ∧
    IS_MLD_SCHEDMSG cfg (mld_schedmsg cfg devs group m).group.flags = true ∧
    (mld_schedmsg cfg devs group m).notified = [dev] := by
  have ha : schedmsg_asserts cfg group = true := by
    simp [schedmsg_asserts, hclear, Nat.pos_of_ne_zero hif]
  rw [mld_schedmsg_some cfg devs group m dev ha hdev]
  simp

/-- C2 fails with `DEBUGASSERT` compiled in: on the record with a Report
pending (scheduled flag set) and no device, `mld_schedmsg` does not return
`-ENODEV`: it stops at the assertion of line 72, before the lookup. -/
theorem mld_schedmsg_nodev_counterexample :
    noDev.netdev_findbyindex pendingReport.ifindex = none ∧
    (mld_schedmsg (nuttx true) noDev pendingReport 132).status = .asserted ∧
    (mld_schedmsg_call (nuttx true) noDev [] pendingReport 132).status = .asserted ∧
    (mld_schedmsg_call (nuttx true) noDev [] pendingReport 132).status
      ≠ .returned (-((nuttx true).ENODEV : Int)) := by
  decide

/-- C2 as amended: when the device lookup finds no device, `mld_schedmsg`
leaves the record as it was, writes nothing and notifies no device (so no
driver gets to touch the record, and the call is just the statements of
the function); it returns `-ENODEV` whenever the call gets to the lookup,
that is when the scheduled flag is clear and `ifindex > 0`, or when
`DEBUGASSERT` is compiled out; and with `DEBUGASSERT` compiled in and the
scheduled flag set or `ifindex = 0` it stops at the failed assertion. -/
theorem mld_schedmsg_nodev (cfg : Config) (devs : Devices) (group : mld_group_s) (m : Nat)
    (hdev : devs.netdev_findbyindex group.ifindex = none) :
    ((mld_schedmsg cfg devs group m).group = group ∧
     (mld_schedmsg cfg devs group m).steps = [] ∧
     (mld_schedmsg cfg devs group m).notified = []) ∧
    (∀ txavail, mld_schedmsg_call cfg devs txavail group m = mld_schedmsg cfg devs group m) ∧
    ((cfg.assertions = true →
        IS_MLD_SCHEDMSG cfg group.flags = false ∧ 0 < group.ifindex) →
      (mld_schedmsg cfg devs group m).status = .returned (-(cfg.ENODEV : Int))) ∧
    (cfg.assertions = true →
      (IS_MLD_SCHEDMSG cfg group.flags = true ∨ group.ifindex = 0) →
      (mld_schedmsg cfg devs group m).status = .asserted) := by
  cases ha : schedmsg_asserts cfg group
  · rw [mld_schedmsg_asserted cfg devs group m ha]
    refine ⟨⟨rfl, rfl, rfl⟩, fun txavail => ?_, fun h => ?_, fun _ _ => rfl⟩
    · simp [mld_schedmsg_call, mld_schedmsg_asserted cfg devs group m ha]
    · exfalso
      cases hc : cfg.assertions
      · simp [schedmsg_asserts, hc] at ha
      · have := h hc
        simp [schedmsg_asserts, hc, this.1, this.2] at ha
  · rw [mld_schedmsg_none cfg devs group m ha hdev]
    refine ⟨⟨rfl, rfl, rfl⟩, fun txavail => ?_, fun _ => rfl, fun hc hbad => ?_⟩
    · simp [mld_schedmsg_call, mld_schedmsg_none cfg devs group m ha hdev]
    · exfalso
      rcases hbad with hbad | hbad
      · simp [schedmsg_asserts, hc, hbad] at ha
      · simp [schedmsg_asserts, hc, hbad] at ha

/-- C2 as amended, at the fresh record when no device exists: the call
returns `-ENODEV` (assertions on, and they hold). -/
theorem mld_schedmsg_nodev_witness :
    noDev.netdev_findbyindex fresh.ifindex = none ∧
    (mld_schedmsg (nuttx true) noDev fresh 131).group = fresh ∧
    (mld_schedmsg (nuttx true) noDev fresh 131).notified = [] ∧
    (mld_schedmsg (nuttx true) noDev fresh 131).status = .returned (-19) :=
  ⟨rfl, (mld_schedmsg_nodev (nuttx true) noDev fresh 131 rfl).1.1,
    (mld_schedmsg_nodev (nuttx true) noDev fresh 131 rfl).1.2.2,
    (mld_schedmsg_nodev (nuttx true) noDev fresh 131 rfl).2.2.1 (fun _ => by decide)⟩

/-- C3 fails without `DEBUGASSERT`: on a record whose scheduled flag is
already set, `mld_schedmsg` returns `OK` and replaces the pending message
type 131 by 132. -/
theorem mld_schedmsg_rescheduled_counterexample :
    IS_MLD_SCHEDMSG (nuttx false) pendingReport.flags = true ∧
    (mld_schedmsg (nuttx false) oneDev pendingReport 132).status = .returned OK ∧
    pendingReport.msgtype = 131 ∧
    (mld_schedmsg (nuttx false) oneDev pendingReport 132).group.msgtype = 132 := by
  decide

/-- C3 as amended: on a record whose scheduled flag is already set,
`mld_schedmsg` never returns an error of its own for that: with
`DEBUGASSERT` compiled in the call stops at the failed assertion, the
record is untouched and no device is notified; with `DEBUGASSERT` compiled
out the flag is not looked at, and the call returns `OK` with `msgtype`
replaced by `m` when the lookup finds a device, and `-ENODEV` with the
record unchanged when it finds none. -/
theorem mld_schedmsg_already_scheduled (cfg : Config) (devs : Devices) (group : mld_group_s)
    (m : Nat) (hset : IS_MLD_SCHEDMSG cfg group.flags = true) :
    (cfg.assertions = true →
      (mld_schedmsg cfg devs group m).status = .asserted ∧
      (mld_schedmsg cfg devs group m).group = group ∧
      (mld_schedmsg cfg devs group m).notified = []) ∧
    (cfg.assertions = false →
      (∀ dev, devs.netdev_findbyindex group.ifindex = some dev →
        (mld_schedmsg cfg devs group m).status = .returned OK ∧
        (mld_schedmsg cfg devs group m).group.msgtype = m ∧
        IS_MLD_SCHEDMSG cfg (mld_schedmsg cfg devs group m).group.flags = true ∧
        (mld_schedmsg cfg devs group m).notified = [dev]) ∧
      (devs.netdev_findbyindex group.ifindex = none →
        (mld_schedmsg cfg devs group m).status = .returned (-(cfg.ENODEV : Int)) ∧
        (mld_schedmsg cfg devs group m).group = group ∧
        (mld_schedmsg cfg devs group m).notified = [])) := by
  refine ⟨fun hc => ?_, fun hc => ⟨fun dev hdev => ?_, fun hdev => ?_⟩⟩
  · have ha : schedmsg_asserts cfg group = false := by simp [schedmsg_asserts, hc, hset]
    rw [mld_schedmsg_asserted cfg devs group m ha]
    exact ⟨rfl, rfl, rfl⟩
  · have ha : schedmsg_asserts cfg group = true := by simp [schedmsg_asserts, hc]
    rw [mld_schedmsg_some cfg devs group m dev ha hdev]
    simp
  · have ha : schedmsg_asserts cfg group = true := by simp [schedmsg_asserts, hc]
    rw [mld_schedmsg_none cfg devs group m ha hdev]
    exact ⟨rfl, rfl, rfl⟩

/-- C3 as amended, at the record with a Report pending: with assertions on
the call stops at the assertion and the Report stays pending. -/
theorem mld_schedmsg_already_scheduled_witness :
    IS_MLD_SCHEDMSG (nuttx true) pendingReport.flags = true ∧
    (mld_schedmsg (nuttx true) oneDev pendingReport 132).status = .asserted ∧
    (mld_schedmsg (nuttx true) oneDev pendingReport 132).group = pendingReport :=
  ⟨by decide,
    ((mld_schedmsg_already_scheduled (nuttx true) oneDev pendingReport 132 (by decide)).1 rfl).1,
    ((mld_schedmsg_already_scheduled (nuttx true) oneDev pendingReport 132 (by decide)).1 rfl).2.1⟩

/-! ## Facts about the loop of `mld_waitmsg` -/

@[simp]
theorem Run.seq_status (a b : Run) : (a.seq b).status = b.status := rfl
@[simp]
theorem Run.seq_group (a b : Run) : (a.seq b).group = b.group := rfl
@[simp]
theorem Run.seq_steps (a b : Run) : (a.seq b).steps = a.steps ++ b.steps := rfl
@[simp]
theorem Run.seq_notified (a b : Run) :
    (a.seq b).notified = a.notified ++ b.notified := rfl
@[simp]
theorem Run.seq_waits (a b : Run) : (a.seq b).waits = a.waits + b.waits := rfl

@[simp]
theorem errout_status (cfg : Config) (ret : Int) (g : mld_group_s) :
    (errout cfg ret g).status = .returned ret := rfl
@[simp]
theorem errout_group (cfg : Config) (ret : Int) (g : mld_group_s) :
    (errout cfg ret g).group = { g with flags := CLR_MLD_WAITMSG cfg g.flags } := rfl
@[simp]
theorem errout_steps (cfg : Config) (ret : Int) (g : mld_group_s) :
    (errout cfg ret g).steps =
      [⟨.waitmsg, g, { g with flags := CLR_MLD_WAITMSG cfg g.flags }⟩] := rfl
@[simp]
theorem errout_notified (cfg : Config) (ret : Int) (g : mld_group_s) :
    (errout cfg ret g).notified = [] := rfl
@[simp]
theorem errout_waits (cfg : Config) (ret : Int) (g : mld_group_s) :
    (errout cfg ret g).waits = 0 := rfl

/-- With nothing left in the script the task is blocked. -/
theorem wait_loop_nil (cfg : Config) (g : mld_group_s) :
    wait_loop cfg [] g = ⟨.blocked, g, [], [], 0⟩ := rfl

/-- A wait that takes a unit: the outer condition is evaluated next. -/
theorem wait_loop_taken (cfg : Config) (env : List EnvAct) (rest : List WaitEvent)
    (g : mld_group_s) (h : 0 < (runEnv cfg env g).sem) :
    wait_loop cfg (⟨env, .taken⟩ :: rest) g =
      Run.seq ⟨.blocked, { runEnv cfg env g with sem := (runEnv cfg env g).sem - 1 },
          waitSteps cfg ⟨env, .taken⟩ g, [], 1⟩
        (sched_loop cfg rest OK { runEnv cfg env g with sem := (runEnv cfg env g).sem - 1 }) := by
  simp [wait_loop, net_lockedwait, sched_loop, h, OK]

/-- A wait that would take a unit when there is none: the task is blocked. -/
theorem wait_loop_starved (cfg : Config) (env : List EnvAct) (rest : List WaitEvent)
    (g : mld_group_s) (h : (runEnv cfg env g).sem = 0) :
    wait_loop cfg (⟨env, .taken⟩ :: rest) g =
      ⟨.blocked, runEnv cfg env g, waitSteps cfg ⟨env, .taken⟩ g, [], 1⟩ := by
  simp [wait_loop, net_lockedwait, h]

/-- A wait that ends with `-EINTR`: `net_lockedwait` is called again. -/
theorem wait_loop_interrupted (cfg : Config) (env : List EnvAct) (rest : List WaitEvent)
    (g : mld_group_s) :
    wait_loop cfg (⟨env, .interrupted⟩ :: rest) g =
      Run.seq ⟨.blocked, runEnv cfg env g, waitSteps cfg ⟨env, .interrupted⟩ g, [], 1⟩
        (wait_loop cfg rest (runEnv cfg env g)) := by
  have h0 : cfg.EINTR ≠ 0 := Nat.pos_iff_ne_zero.mp cfg.EINTR_pos
  simp [wait_loop, net_lockedwait, h0]

/-- A wait that ends with `-ECANCELED`: `net_lockedwait` is called again. -/
theorem wait_loop_canceled (cfg : Config) (env : List EnvAct) (rest : List WaitEvent)
    (g : mld_group_s) :
    wait_loop cfg (⟨env, .canceled⟩ :: rest) g =
      Run.seq ⟨.blocked, runEnv cfg env g, waitSteps cfg ⟨env, .canceled⟩ g, [], 1⟩
        (wait_loop cfg rest (runEnv cfg env g)) := by
  have h0 : cfg.ECANCELED ≠ 0 := Nat.pos_iff_ne_zero.mp cfg.ECANCELED_pos
  simp [wait_loop, net_lockedwait, h0]

/-- A wait that fails with a value that is one of the two retried ones. -/
theorem wait_loop_failed_retry (cfg : Config) (env : List EnvAct) (n : Nat)
    (rest : List WaitEvent) (g : mld_group_s)
    (h : Int.negSucc n = -(cfg.EINTR : Int) ∨ Int.negSucc n = -(cfg.ECANCELED : Int)) :
    wait_loop cfg (⟨env, .failed n⟩ :: rest) g =
      Run.seq ⟨.blocked, runEnv cfg env g, waitSteps cfg ⟨env, .failed n⟩ g, [], 1⟩
        (wait_loop cfg rest (runEnv cfg env g)) := by
  have h0 : cfg.EINTR ≠ 0 := Nat.pos_iff_ne_zero.mp cfg.EINTR_pos
  have h1 : cfg.ECANCELED ≠ 0 := Nat.pos_iff_ne_zero.mp cfg.ECANCELED_pos
  rcases h with h | h <;> simp [wait_loop, net_lockedwait, h, h0, h1]

/-- A wait that fails with another value while `DEBUGASSERT` is compiled
in: the assertion stops the call. -/
theorem wait_loop_failed_assert (cfg : Config) (env : List EnvAct) (n : Nat)
    (rest : List WaitEvent) (g : mld_group_s) (ha : cfg.assertions = true)
    (h1 : Int.negSucc n ≠ -(cfg.EINTR : Int)) (h2 : Int.negSucc n ≠ -(cfg.ECANCELED : Int)) :
    wait_loop cfg (⟨env, .failed n⟩ :: rest) g =
      Run.seq ⟨.blocked, runEnv cfg env g, waitSteps cfg ⟨env, .failed n⟩ g, [], 1⟩
        ⟨.asserted, runEnv cfg env g, [], [], 0⟩ := by
  simp [wait_loop, net_lockedwait, Int.negSucc_lt_zero, h1, h2, ha]

/-- A wait that fails with another value while `DEBUGASSERT` is compiled
out: the inner loop is left by `break` with that value in `ret`. -/
theorem wait_loop_failed_break (cfg : Config) (env : List EnvAct) (n : Nat)
    (rest : List WaitEvent) (g : mld_group_s) (ha : cfg.assertions = false)
    (h1 : Int.negSucc n ≠ -(cfg.EINTR : Int)) (h2 : Int.negSucc n ≠ -(cfg.ECANCELED : Int)) :
    wait_loop cfg (⟨env, .failed n⟩ :: rest) g =
      Run.seq ⟨.blocked, runEnv cfg env g, waitSteps cfg ⟨env, .failed n⟩ g, [], 1⟩
        (sched_loop cfg rest (Int.negSucc n) (runEnv cfg env g)) := by
  simp [wait_loop, net_lockedwait, sched_loop, Int.negSucc_lt_zero, h1, h2, ha]

/-- Every return out of the loop: both flags are clear in the record that
is returned, and the value is `OK`, or (only without `DEBUGASSERT`) the
value of a wait that failed with something else than `-EINTR` and
`-ECANCELED`. -/
theorem wait_loop_returned (cfg : Config) (ws : List WaitEvent) :
    ∀ (g : mld_group_s) (ret : Int), (wait_loop cfg ws g).status = .returned ret →
      IS_MLD_SCHEDMSG cfg (wait_loop cfg ws g).group.flags = false ∧
      IS_MLD_WAITMSG cfg (wait_loop cfg ws g).group.flags = false ∧
      (ret = OK ∨
        (cfg.assertions = false ∧
          (∃ e ∈ ws, ∃ n, e.wake = .failed n ∧ ret = Int.negSucc n) ∧
          ret ≠ -(cfg.EINTR : Int) ∧ ret ≠ -(cfg.ECANCELED : Int))) := by
  induction ws with
  | nil =>
    intro g ret h
    simp [wait_loop_nil] at h
  | cons e rest ih =>
    intro g ret h
    -- the step shared by all cases in which the loop goes on with `rest`
    have lift : ∀ (g2 : mld_group_s),
        (wait_loop cfg rest g2).status = .returned ret →
        IS_MLD_SCHEDMSG cfg (wait_loop cfg rest g2).group.flags = false ∧
        IS_MLD_WAITMSG cfg (wait_loop cfg rest g2).group.flags = false ∧
        (ret = OK ∨
          (cfg.assertions = false ∧
            (∃ e2 ∈ e :: rest, ∃ n, e2.wake = .failed n ∧ ret = Int.negSucc n) ∧
            ret ≠ -(cfg.EINTR : Int) ∧ ret ≠ -(cfg.ECANCELED : Int))) := by
      intro g2 h2
      obtain ⟨a, b, c⟩ := ih g2 ret h2
      refine ⟨a, b, ?_⟩
      rcases c with c | ⟨c1, ⟨e2, he2, n, hn⟩, c3⟩
      · exact Or.inl c
      · exact Or.inr ⟨c1, ⟨e2, List.mem_cons_of_mem _ he2, n, hn⟩, c3⟩
    obtain ⟨env, wake⟩ := e
    cases wake with
    | taken =>
      by_cases hs : 0 < (runEnv cfg env g).sem
      · rw [wait_loop_taken cfg env rest g hs] at h ⊢
        simp only [Run.seq_status, Run.seq_group] at h ⊢
        unfold sched_loop at h ⊢
        split at h
        · rename_i hf
          rw [if_pos hf]
          exact lift _ h
        · rename_i hf
          rw [if_neg hf]
          simp only [errout_status, Status.returned.injEq] at h
          simp only [errout_group, is_sched_clr_wait, is_wait_clr_wait]
          exact ⟨by simpa using hf, trivial, Or.inl h.symm⟩
      · rw [wait_loop_starved cfg env rest g (by omega)] at h
        simp at h
    | interrupted =>
      rw [wait_loop_interrupted] at h ⊢
      exact lift _ h
    | canceled =>
      rw [wait_loop_canceled] at h ⊢
      exact lift _ h
    | failed n =>
      by_cases hr : Int.negSucc n = -(cfg.EINTR : Int) ∨ Int.negSucc n = -(cfg.ECANCELED : Int)
      · rw [wait_loop_failed_retry cfg env n rest g hr] at h ⊢
        exact lift _ h
      · have h1 : Int.negSucc n ≠ -(cfg.EINTR : Int) := fun x => hr (Or.inl x)
        have h2 : Int.negSucc n ≠ -(cfg.ECANCELED : Int) := fun x => hr (Or.inr x)
        cases ha : cfg.assertions
        · rw [wait_loop_failed_break cfg env n rest g ha h1 h2] at h ⊢
          simp only [Run.seq_status, Run.seq_group] at h ⊢
          unfold sched_loop at h ⊢
          split at h
          · rename_i hf
            rw [if_pos hf]
            have := lift _ h
            simpa [ha] using this
          · rename_i hf
            rw [if_neg hf]
            simp only [errout_status, Status.returned.injEq] at h
            simp only [errout_group, is_sched_clr_wait, is_wait_clr_wait]
            subst h
            exact ⟨by simpa using hf, trivial,
              Or.inr ⟨trivial, ⟨⟨env, .failed n⟩, List.mem_cons_self _ _, n, rfl, rfl⟩, h1, h2⟩⟩
        · rw [wait_loop_failed_assert cfg env n rest g ha h1 h2] at h
          simp at h

/-- The two ways in which the last wait gives the value of a return. -/
theorem lastWaitGives_iff (cfg : Config) (e : WaitEvent) (ret : Int) :
    lastWaitGives cfg e ret ↔
      (e.wake = .taken ∧ ret = OK) ∨
      (∃ n, e.wake = .failed n ∧ ret = Int.negSucc n ∧ cfg.assertions = false ∧
        ret ≠ -(cfg.EINTR : Int) ∧ ret ≠ -(cfg.ECANCELED : Int)) := by
  obtain ⟨env, wake⟩ := e
  cases wake <;> simp [lastWaitGives]

/-- A return out of the loop comes after at least one wait, and the last
wait made decides the value. -/
theorem wait_loop_returned_last (cfg : Config) (ws : List WaitEvent) :
    ∀ (g : mld_group_s) (ret : Int), (wait_loop cfg ws g).status = .returned ret →
      0 < (wait_loop cfg ws g).waits ∧
      ∃ e, ws[(wait_loop cfg ws g).waits - 1]? = some e ∧ lastWaitGives cfg e ret := by
  induction ws with
  | nil =>
    intro g ret h
    simp [wait_loop_nil] at h
  | cons e rest ih =>
    intro g ret h
    have lift : ∀ (pre : Run) (g2 : mld_group_s), pre.waits = 1 →
        (wait_loop cfg rest g2).status = .returned ret →
        0 < (pre.seq (wait_loop cfg rest g2)).waits ∧
        ∃ e2, (e :: rest)[(pre.seq (wait_loop cfg rest g2)).waits - 1]? = some e2 ∧
          lastWaitGives cfg e2 ret := by
      intro pre g2 hpre h2
      obtain ⟨hpos, e2, he2, hl⟩ := ih g2 ret h2
      refine ⟨by simp [hpre], e2, ?_, hl⟩
      obtain ⟨k, hk⟩ : ∃ k, (wait_loop cfg rest g2).waits = k + 1 := ⟨_, (Nat.succ_pred_eq_of_pos hpos).symm⟩
      simp only [Run.seq_waits, hpre, hk] at he2 ⊢
      simpa [Nat.add_comm 1 (k + 1)] using he2
    have stop : ∀ (pre : Run) (r : Int) (g2 : mld_group_s), pre.waits = 1 →
        lastWaitGives cfg e r →
        0 < (pre.seq (errout cfg r g2)).waits ∧
        ∃ e2, (e :: rest)[(pre.seq (errout cfg r g2)).waits - 1]? = some e2 ∧
          lastWaitGives cfg e2 r := by
      intro pre r g2 hpre hl
      refine ⟨by simp [hpre], e, by simp [hpre], hl⟩
    obtain ⟨env, wake⟩ := e
    cases wake with
    | taken =>
      by_cases hs : 0 < (runEnv cfg env g).sem
      · rw [wait_loop_taken cfg env rest g hs] at h ⊢
        simp only [Run.seq_status] at h
        unfold sched_loop at h ⊢
        split at h
        · rename_i hf
          rw [if_pos hf]
          exact lift _ _ rfl h
        · rename_i hf
          rw [if_neg hf]
          simp only [errout_status, Status.returned.injEq] at h
          subst h
          exact stop _ _ _ rfl ((lastWaitGives_iff _ _ _).mpr (Or.inl ⟨rfl, rfl⟩))
      · rw [wait_loop_starved cfg env rest g (by omega)] at h
        simp at h
    | interrupted =>
      rw [wait_loop_interrupted] at h ⊢
      exact lift _ _ rfl h
    | canceled =>
      rw [wait_loop_canceled] at h ⊢
      exact lift _ _ rfl h
    | failed n =>
      by_cases hr : Int.negSucc n = -(cfg.EINTR : Int) ∨ Int.negSucc n = -(cfg.ECANCELED : Int)
      · rw [wait_loop_failed_retry cfg env n rest g hr] at h ⊢
        exact lift _ _ rfl h
      · have h1 : Int.negSucc n ≠ -(cfg.EINTR : Int) := fun x => hr (Or.inl x)
        have h2 : Int.negSucc n ≠ -(cfg.ECANCELED : Int) := fun x => hr (Or.inr x)
        cases ha : cfg.assertions
        · rw [wait_loop_failed_break cfg env n rest g ha h1 h2] at h ⊢
          simp only [Run.seq_status] at h
          unfold sched_loop at h ⊢
          split at h
          · rename_i hf
            rw [if_pos hf]
            exact lift _ _ rfl h
          · rename_i hf
            rw [if_neg hf]
            simp only [errout_status, Status.returned.injEq] at h
            subst h
            exact stop _ _ _ rfl ((lastWaitGives_iff _ _ _).mpr (Or.inr ⟨n, rfl, rfl, ha, h1, h2⟩))
        · rw [wait_loop_failed_assert cfg env n rest g ha h1 h2] at h
          simp at h

/-! ## Facts about `mld_waitmsg` -/

/-- The assertion of `mld_waitmsg` fails. -/
theorem mld_waitmsg_asserted (cfg : Config) (devs : Devices) (script : Script)
    (g : mld_group_s) (m : Nat) (h : (cfg.assertions && IS_MLD_WAITMSG cfg g.flags) = true) :
    mld_waitmsg cfg devs script g m = ⟨.asserted, g, [], [], 0⟩ := by
  simp [mld_waitmsg, h]

/-- An assertion of the nested `mld_schedmsg` fails. -/
theorem mld_waitmsg_sched_asserted (cfg : Config) (devs : Devices) (script : Script)
    (g : mld_group_s) (m : Nat) (h : (cfg.assertions && IS_MLD_WAITMSG cfg g.flags) = false)
    (ha : schedmsg_asserts cfg (waiting cfg g) = false) :
    mld_waitmsg cfg devs script g m =
      ⟨.asserted, waiting cfg g, [⟨.waitmsg, g, waiting cfg g⟩], [], 0⟩ := by
  have e := mld_schedmsg_asserted cfg devs (waiting cfg g) m ha
  unfold waiting at e
  simp [mld_waitmsg, h, e, Run.seq, waiting]

/-- The nested `mld_schedmsg` finds no device. -/
theorem mld_waitmsg_nodev (cfg : Config) (devs : Devices) (script : Script)
    (g : mld_group_s) (m : Nat) (h : (cfg.assertions && IS_MLD_WAITMSG cfg g.flags) = false)
    (ha : schedmsg_asserts cfg (waiting cfg g) = true)
    (hdev : devs.netdev_findbyindex g.ifindex = none) :
    mld_waitmsg cfg devs script g m =
      Run.seq ⟨.blocked, waiting cfg g, [⟨.waitmsg, g, waiting cfg g⟩], [], 0⟩
        (errout cfg (-(cfg.ENODEV : Int)) (waiting cfg g)) := by
  have e := mld_schedmsg_none cfg devs (waiting cfg g) m ha hdev
  have hp : 0 < cfg.ENODEV := cfg.ENODEV_pos
  unfold waiting at e
  simp [mld_waitmsg, h, e, Run.seq, waiting, hp]

/-- The nested `mld_schedmsg` finds a device: the loop is entered. -/
theorem mld_waitmsg_scheduled (cfg : Config) (devs : Devices) (script : Script)
    (g : mld_group_s) (m dev : Nat) (h : (cfg.assertions && IS_MLD_WAITMSG cfg g.flags) = false)
    (ha : schedmsg_asserts cfg (waiting cfg g) = true)
    (hdev : devs.netdev_findbyindex g.ifindex = some dev) :
    mld_waitmsg cfg devs script g m =
      Run.seq ⟨.blocked, scheduled cfg script g m,
          ⟨.waitmsg, g, waiting cfg g⟩ ::
            (mld_schedmsg cfg devs (waiting cfg g) m).steps ++
            envSteps cfg script.txavail (mld_schedmsg cfg devs (waiting cfg g) m).group,
          [dev], 0⟩
        (sched_loop cfg script.waits OK (scheduled cfg script g m)) := by
  have e := mld_schedmsg_some cfg devs (waiting cfg g) m dev ha hdev
  rw [e]
  unfold waiting at e
  simp [mld_waitmsg, h, e, Run.seq, waiting, scheduled, OK]

/-- Scheduling succeeded exactly when no assertion fired on the way and
the lookup found a device. -/
theorem scheduling_succeeded_iff (cfg : Config) (devs : Devices) (g : mld_group_s) (m : Nat) :
    scheduling_succeeded cfg devs g m = true ↔
      (cfg.assertions && IS_MLD_WAITMSG cfg g.flags) = false ∧
      schedmsg_asserts cfg (waiting cfg g) = true ∧
      ∃ dev, devs.netdev_findbyindex g.ifindex = some dev := by
  have hp : (cfg.ENODEV : Int) ≠ 0 := by
    have := cfg.ENODEV_pos
    omega
  unfold scheduling_succeeded
  cases ha : schedmsg_asserts cfg (waiting cfg g)
  · rw [mld_schedmsg_asserted cfg devs (waiting cfg g) m ha]
    simp
  · cases hdev : devs.netdev_findbyindex g.ifindex with
    | none =>
      rw [mld_schedmsg_none cfg devs (waiting cfg g) m ha hdev]
      simp [OK, hp]
    | some dev =>
      rw [mld_schedmsg_some cfg devs (waiting cfg g) m dev ha hdev]
      cases cfg.assertions <;> simp

/-- What is known of a call in which scheduling succeeded: the run is the
prologue followed by the loop on the record `scheduled`. -/
theorem mld_waitmsg_of_succeeded (cfg : Config) (devs : Devices) (script : Script)
    (g : mld_group_s) (m : Nat) (hs : scheduling_succeeded cfg devs g m = true) :
    (mld_waitmsg cfg devs script g m).status =
        (sched_loop cfg script.waits OK (scheduled cfg script g m)).status ∧
    (mld_waitmsg cfg devs script g m).group =
        (sched_loop cfg script.waits OK (scheduled cfg script g m)).group ∧
    (mld_waitmsg cfg devs script g m).waits =
        (sched_loop cfg script.waits OK (scheduled cfg script g m)).waits := by
  obtain ⟨h, ha, dev, hdev⟩ := (scheduling_succeeded_iff cfg devs g m).mp hs
  rw [mld_waitmsg_scheduled cfg devs script g m dev h ha hdev]
  simp

/-- Every return of the outer loop entered with `OK` in `ret`: both flags
are clear; and either no wait was made and the value is `OK`, or the last
wait decides the value. -/
theorem sched_loop_returned (cfg : Config) (ws : List WaitEvent) (g : mld_group_s) (ret : Int)
    (h : (sched_loop cfg ws OK g).status = .returned ret) :
    IS_MLD_SCHEDMSG cfg (sched_loop cfg ws OK g).group.flags = false ∧
    IS_MLD_WAITMSG cfg (sched_loop cfg ws OK g).group.flags = false ∧
    (((sched_loop cfg ws OK g).waits = 0 ∧ ret = OK) ∨
      (0 < (sched_loop cfg ws OK g).waits ∧
        ∃ e, ws[(sched_loop cfg ws OK g).waits - 1]? = some e ∧ lastWaitGives cfg e ret)) := by
  unfold sched_loop at h ⊢
  split at h
  · rename_i hf
    rw [if_pos hf]
    obtain ⟨a, b, _⟩ := wait_loop_returned cfg ws g ret h
    exact ⟨a, b, Or.inr (wait_loop_returned_last cfg ws g ret h)⟩
  · rename_i hf
    rw [if_neg hf]
    simp only [errout_status, Status.returned.injEq] at h
    simp only [errout_group, is_sched_clr_wait, is_wait_clr_wait, errout_waits]
    exact ⟨by simpa using hf, trivial, Or.inl ⟨trivial, h.symm⟩⟩

/-! ## Properties of `mld_waitmsg` -/

/-- C4: on a record whose waiting flag is clear, when the nested
`mld_schedmsg` returns an error `ret` (that is: the lookup finds no device
and `ret` is `-ENODEV`), `mld_waitmsg` returns the same `ret` without any
wait and without notifying a device, and the record on return equals the
record before the call. -/
theorem mld_waitmsg_sched_fails (cfg : Config) (devs : Devices) (script : Script)
    (group : mld_group_s) (m : Nat) (ret : Int)
    (hw : IS_MLD_WAITMSG cfg group.flags = false)
    (hfail : (mld_schedmsg cfg devs (waiting cfg group) m).status = .returned ret)
    (hneg : ret < 0) :
    (mld_waitmsg cfg devs script group m).status = .returned ret ∧
    (mld_waitmsg cfg devs script group m).waits = 0 ∧
    (mld_waitmsg cfg devs script group m).group = group ∧
    (mld_waitmsg cfg devs script group m).notified = [] ∧
    devs.netdev_findbyindex group.ifindex = none ∧ ret = -(cfg.ENODEV : Int) := by
  have h : (cfg.assertions && IS_MLD_WAITMSG cfg group.flags) = false := by simp [hw]
  cases ha : schedmsg_asserts cfg (waiting cfg group)
  · rw [mld_schedmsg_asserted cfg devs (waiting cfg group) m ha] at hfail
    simp at hfail
  · cases hdev : devs.netdev_findbyindex group.ifindex with
    | some dev =>
      rw [mld_schedmsg_some cfg devs (waiting cfg group) m dev ha hdev] at hfail
      simp only [Status.returned.injEq] at hfail
      rw [← hfail] at hneg
      simp [OK] at hneg
    | none =>
      rw [mld_schedmsg_none cfg devs (waiting cfg group) m ha hdev] at hfail
      simp only [Status.returned.injEq] at hfail
      subst hfail
      rw [mld_waitmsg_nodev cfg devs script group m h ha hdev]
      refine ⟨rfl, rfl, ?_, rfl, rfl, rfl⟩
      simp only [Run.seq_group, errout_group, waiting]
      rw [clr_wait_set_wait cfg group.flags hw]

/-- C4 at the fresh record when no device exists. -/
theorem mld_waitmsg_sched_fails_witness :
    (IS_MLD_WAITMSG (nuttx true) fresh.flags = false ∧
      (mld_schedmsg (nuttx true) noDev (waiting (nuttx true) fresh) 131).status = .returned (-19) ∧
      (-19 : Int) < 0) ∧
    ((mld_waitmsg (nuttx true) noDev ⟨[], []⟩ fresh 131).status = .returned (-19) ∧
     (mld_waitmsg (nuttx true) noDev ⟨[], []⟩ fresh 131).waits = 0 ∧
     (mld_waitmsg (nuttx true) noDev ⟨[], []⟩ fresh 131).group = fresh ∧
     (mld_waitmsg (nuttx true) noDev ⟨[], []⟩ fresh 131).notified = [] ∧
     noDev.netdev_findbyindex fresh.ifindex = none ∧ (-19 : Int) = -((nuttx true).ENODEV : Int)) :=
  ⟨by decide,
    mld_waitmsg_sched_fails (nuttx true) noDev ⟨[], []⟩ fresh 131 (-19)
      (by decide) (by decide) (by decide)⟩

/-- C5 fails without `DEBUGASSERT`: scheduling succeeds, the only wait
fails with `-22` while the other task completes the message, the loop
exits on the clear scheduled flag, the waiting flag is cleared, and
`mld_waitmsg` returns `-22`, not `OK`. -/
theorem mld_waitmsg_loop_exit_counterexample :
    scheduling_succeeded (nuttx false) oneDev fresh 131 = true ∧
    (mld_waitmsg (nuttx false) oneDev ⟨[], [⟨[.complete], .failed 21⟩]⟩ fresh 131).status
      = .returned (-22) ∧
    IS_MLD_SCHEDMSG (nuttx false)
      (mld_waitmsg (nuttx false) oneDev ⟨[], [⟨[.complete], .failed 21⟩]⟩ fresh 131).group.flags
      = false ∧
    IS_MLD_WAITMSG (nuttx false)
      (mld_waitmsg (nuttx false) oneDev ⟨[], [⟨[.complete], .failed 21⟩]⟩ fresh 131).group.flags
      = false ∧
    (-22 : Int) ≠ OK := by
  decide

/-- C5 as amended: in a call in which scheduling succeeded, every return
(it is made at the exit of the loop) has the waiting flag clear; the value
is `OK` when no wait was made or when the last wait took a unit, and it is
the value of the last wait when that wait failed with something else than
`-EINTR`/`-ECANCELED`, which needs `DEBUGASSERT` compiled out.  So the
value is `OK` whenever `DEBUGASSERT` is compiled in, and whenever every
wait ends with a unit taken, `-EINTR` or `-ECANCELED`. -/
theorem mld_waitmsg_loop_exit (cfg : Config) (devs : Devices) (script : Script)
    (group : mld_group_s) (m : Nat) (ret : Int)
    (hs : scheduling_succeeded cfg devs group m = true)
    (hret : (mld_waitmsg cfg devs script group m).status = .returned ret) :
    IS_MLD_WAITMSG cfg (mld_waitmsg cfg devs script group m).group.flags = false ∧
    (((mld_waitmsg cfg devs script group m).waits = 0 ∧ ret = OK) ∨
      (0 < (mld_waitmsg cfg devs script group m).waits ∧
        ∃ e, script.waits[(mld_waitmsg cfg devs script group m).waits - 1]? = some e ∧
          lastWaitGives cfg e ret)) ∧
    (cfg.assertions = true → ret = OK) ∧
    ((∀ e ∈ script.waits, e.wake = .taken ∨ e.wake = .interrupted ∨ e.wake = .canceled) →
      ret = OK) := by
  obtain ⟨e1, e2, e3⟩ := mld_waitmsg_of_succeeded cfg devs script group m hs
  rw [e1] at hret
  rw [e2, e3]
  obtain ⟨_, b, c⟩ := sched_loop_returned cfg script.waits _ ret hret
  refine ⟨b, c, fun ha => ?_, fun hall => ?_⟩
  · rcases c with ⟨_, c⟩ | ⟨_, e, _, hl⟩
    · exact c
    · rcases (lastWaitGives_iff _ _ _).mp hl with ⟨_, hl⟩ | ⟨n, _, _, hf, _⟩
      · exact hl
      · rw [ha] at hf
        cases hf
  · rcases c with ⟨_, c⟩ | ⟨_, e, he, hl⟩
    · exact c
    · rcases (lastWaitGives_iff _ _ _).mp hl with ⟨_, hl⟩ | ⟨n, hn, _⟩
      · exact hl
      · have hmem : e ∈ script.waits := List.getElem?_mem he
        rcases hall e hmem with h | h | h <;> rw [hn] at h <;> cases h

/-- C5 as amended, on a run with an interrupted wait, a canceled wait
during which the message is completed, and a wait that takes the unit. -/
theorem mld_waitmsg_loop_exit_witness :
    scheduling_succeeded (nuttx true) oneDev fresh 131 = true ∧
    (mld_waitmsg (nuttx true) oneDev
      ⟨[], [⟨[], .interrupted⟩, ⟨[.complete], .canceled⟩, ⟨[], .taken⟩]⟩ fresh 131).status
      = .returned 0 ∧
    IS_MLD_WAITMSG (nuttx true) (mld_waitmsg (nuttx true) oneDev
      ⟨[], [⟨[], .interrupted⟩, ⟨[.complete], .canceled⟩, ⟨[], .taken⟩]⟩ fresh 131).group.flags
      = false ∧
    (0 : Int) = OK :=
  ⟨by decide, by decide,
    (mld_waitmsg_loop_exit (nuttx true) oneDev
      ⟨[], [⟨[], .interrupted⟩, ⟨[.complete], .canceled⟩, ⟨[], .taken⟩]⟩ fresh 131 0
      (by decide) (by decide)).1,
    (mld_waitmsg_loop_exit (nuttx true) oneDev
      ⟨[], [⟨[], .interrupted⟩, ⟨[.complete], .canceled⟩, ⟨[], .taken⟩]⟩ fresh 131 0
      (by decide) (by decide)).2.2.1 rfl⟩

/-- C6: in a call in which scheduling succeeded, whatever the script of the
environment is, `mld_waitmsg` never returns while the scheduled flag is
set: at every return the flag is clear. -/
theorem mld_waitmsg_returns_unscheduled (cfg : Config) (devs : Devices) (script : Script)
    (group : mld_group_s) (m : Nat) (ret : Int)
    (hs : scheduling_succeeded cfg devs group m = true)
    (hret : (mld_waitmsg cfg devs script group m).status = .returned ret) :
    IS_MLD_SCHEDMSG cfg (mld_waitmsg cfg devs script group m).group.flags = false := by
  obtain ⟨e1, e2, _⟩ := mld_waitmsg_of_succeeded cfg devs script group m hs
  rw [e1] at hret
  rw [e2]
  exact (sched_loop_returned cfg script.waits _ ret hret).1

/-- C6 on a run with a stale unit of the wait signal: the first wait takes
it while the message is still scheduled, the loop waits again, and the
call returns only after the message is completed. -/
theorem mld_waitmsg_returns_unscheduled_witness :
    scheduling_succeeded (nuttx true) oneDev { fresh with sem := 1 } 131 = true ∧
    (mld_waitmsg (nuttx true) oneDev
      ⟨[], [⟨[], .taken⟩, ⟨[], .interrupted⟩, ⟨[.complete], .taken⟩]⟩
      { fresh with sem := 1 } 131).status = .returned 0 ∧
    (mld_waitmsg (nuttx true) oneDev
      ⟨[], [⟨[], .taken⟩, ⟨[], .interrupted⟩, ⟨[.complete], .taken⟩]⟩
      { fresh with sem := 1 } 131).waits = 3 ∧
    IS_MLD_SCHEDMSG (nuttx true) (mld_waitmsg (nuttx true) oneDev
      ⟨[], [⟨[], .taken⟩, ⟨[], .interrupted⟩, ⟨[.complete], .taken⟩]⟩
      { fresh with sem := 1 } 131).group.flags = false :=
  ⟨by decide, by decide, by decide,
    mld_waitmsg_returns_unscheduled (nuttx true) oneDev
      ⟨[], [⟨[], .taken⟩, ⟨[], .interrupted⟩, ⟨[.complete], .taken⟩]⟩
      { fresh with sem := 1 } 131 0 (by decide) (by decide)⟩

/-- C7: whatever the script of the environment is, the value returned by
`mld_waitmsg` is neither `-EINTR` nor `-ECANCELED`; and a wait that ends
with Interrupted or Canceled is never the last wait of a returning call:
another `net_lockedwait` is made after it. -/
theorem mld_waitmsg_retries (cfg : Config) (devs : Devices) (script : Script)
    (group : mld_group_s) (m : Nat) (ret : Int)
    (hret : (mld_waitmsg cfg devs script group m).status = .returned ret) :
    ret ≠ -(cfg.EINTR : Int) ∧ ret ≠ -(cfg.ECANCELED : Int) ∧
    ∀ i e, script.waits[i]? = some e → i < (mld_waitmsg cfg devs script group m).waits →
      (e.wake = .interrupted ∨ e.wake = .canceled) →
      i + 1 < (mld_waitmsg cfg devs script group m).waits := by
  have p1 := cfg.EINTR_pos
  have p2 := cfg.ECANCELED_pos
  have p3 := cfg.ENODEV_ne_EINTR
  have p4 := cfg.ENODEV_ne_ECANCELED
  cases h : (cfg.assertions && IS_MLD_WAITMSG cfg group.flags)
  · cases ha : schedmsg_asserts cfg (waiting cfg group)
    · rw [mld_waitmsg_sched_asserted cfg devs script group m h ha] at hret
      simp at hret
    · cases hdev : devs.netdev_findbyindex group.ifindex with
      | none =>
        rw [mld_waitmsg_nodev cfg devs script group m h ha hdev] at hret ⊢
        simp only [Run.seq_status, errout_status, Status.returned.injEq] at hret
        subst hret
        refine ⟨by omega, by omega, ?_⟩
        intro i e _ hi
        simp at hi
      | some dev =>
        have hs : scheduling_succeeded cfg devs group m = true :=
          (scheduling_succeeded_iff cfg devs group m).mpr ⟨h, ha, dev, hdev⟩
        obtain ⟨e1, _, e3⟩ := mld_waitmsg_of_succeeded cfg devs script group m hs
        rw [e1] at hret
        rw [e3]
        obtain ⟨_, _, c⟩ := sched_loop_returned cfg script.waits _ ret hret
        rcases c with ⟨c0, c⟩ | ⟨cpos, e2, he2, hl⟩
        · subst c
          refine ⟨by simp only [OK]; omega, by simp only [OK]; omega, ?_⟩
          intro i e _ hi
          omega
        · refine ⟨?_, ?_, ?_⟩
          · rcases (lastWaitGives_iff _ _ _).mp hl with ⟨_, hl⟩ | ⟨n, _, _, _, hl, _⟩
            · subst hl
              simp only [OK]
              omega
            · exact hl
          · rcases (lastWaitGives_iff _ _ _).mp hl with ⟨_, hl⟩ | ⟨n, _, _, _, _, hl⟩
            · subst hl
              simp only [OK]
              omega
            · exact hl
          · intro i e he hi hw
            by_contra hlast
            have hi2 : i = (sched_loop cfg script.waits OK (scheduled cfg script group m)).waits - 1 := by
              omega
            rw [← hi2, he] at he2
            cases he2
            rcases (lastWaitGives_iff _ _ _).mp hl with ⟨ht, _⟩ | ⟨n, hn, _⟩
            · rcases hw with hw | hw <;> rw [ht] at hw <;> cases hw
            · rcases hw with hw | hw <;> rw [hn] at hw <;> cases hw
  · rw [mld_waitmsg_asserted cfg devs script group m h] at hret
    simp at hret

/-- C7 on a run whose first wait is interrupted and whose second wait is
canceled: the call returns `OK` after a third wait. -/
theorem mld_waitmsg_retries_witness :
    (mld_waitmsg (nuttx true) oneDev
      ⟨[], [⟨[], .interrupted⟩, ⟨[.complete], .canceled⟩, ⟨[], .taken⟩]⟩ fresh 131).status
      = .returned 0 ∧
    ((0 : Int) ≠ -((nuttx true).EINTR : Int) ∧ (0 : Int) ≠ -((nuttx true).ECANCELED : Int) ∧
      ∀ i e, (Script.waits
          ⟨[], [⟨[], .interrupted⟩, ⟨[.complete], .canceled⟩, ⟨[], .taken⟩]⟩)[i]? = some e →
        i < (mld_waitmsg (nuttx true) oneDev
          ⟨[], [⟨[], .interrupted⟩, ⟨[.complete], .canceled⟩, ⟨[], .taken⟩]⟩ fresh 131).waits →
        (e.wake = .interrupted ∨ e.wake = .canceled) →
        i + 1 < (mld_waitmsg (nuttx true) oneDev
          ⟨[], [⟨[], .interrupted⟩, ⟨[.complete], .canceled⟩, ⟨[], .taken⟩]⟩ fresh 131).waits) :=
  ⟨by decide,
    mld_waitmsg_retries (nuttx true) oneDev
      ⟨[], [⟨[], .interrupted⟩, ⟨[.complete], .canceled⟩, ⟨[], .taken⟩]⟩ fresh 131 0 (by decide)⟩

/-! ## No lost wakeup -/

/-- Spurious waits at the head of the script are consumed one by one and
change nothing. -/
theorem wait_loop_spurious (cfg : Config) (pre rest : List WaitEvent)
    (hpre : ∀ e ∈ pre, e.spurious) (g : mld_group_s) :
    (wait_loop cfg (pre ++ rest) g).status = (wait_loop cfg rest g).status ∧
    (wait_loop cfg (pre ++ rest) g).group = (wait_loop cfg rest g).group ∧
    (wait_loop cfg (pre ++ rest) g).waits = pre.length + (wait_loop cfg rest g).waits := by
  induction pre with
  | nil => simp
  | cons e pre ih =>
    have he := hpre e (List.mem_cons_self _ _)
    have ih2 := ih (fun x hx => hpre x (List.mem_cons_of_mem _ hx))
    obtain ⟨env, wake⟩ := e
    obtain ⟨henv, hwake⟩ := he
    simp only at henv hwake
    subst henv
    simp only [List.cons_append, List.length_cons]
    rcases hwake with hw | hw <;> subst hw
    · rw [wait_loop_interrupted]
      simp only [Run.seq_status, Run.seq_group, Run.seq_waits, runEnv]
      exact ⟨ih2.1, ih2.2.1, by rw [ih2.2.2]; omega⟩
    · rw [wait_loop_canceled]
      simp only [Run.seq_status, Run.seq_group, Run.seq_waits, runEnv]
      exact ⟨ih2.1, ih2.2.1, by rw [ih2.2.2]; omega⟩

/-- A wait that finds a unit and, once the other tasks have run, a clear
scheduled flag: the call returns `OK` with both flags clear. -/
theorem wait_loop_taken_exit (cfg : Config) (env : List EnvAct) (rest : List WaitEvent)
    (g : mld_group_s) (h : 0 < (runEnv cfg env g).sem)
    (hf : IS_MLD_SCHEDMSG cfg (runEnv cfg env g).flags = false) :
    (wait_loop cfg (⟨env, .taken⟩ :: rest) g).status = .returned OK ∧
    IS_MLD_SCHEDMSG cfg (wait_loop cfg (⟨env, .taken⟩ :: rest) g).group.flags = false ∧
    IS_MLD_WAITMSG cfg (wait_loop cfg (⟨env, .taken⟩ :: rest) g).group.flags = false ∧
    (wait_loop cfg (⟨env, .taken⟩ :: rest) g).waits = 1 := by
  rw [wait_loop_taken cfg env rest g h]
  simp [sched_loop, hf]

/-- After `complete` on a record whose waiting flag is set, the scheduled
flag is clear, the waiting flag is still set and a unit of the wait signal
is there. -/
theorem complete_posts (cfg : Config) (g : mld_group_s)
    (hw : IS_MLD_WAITMSG cfg g.flags = true) :
    IS_MLD_SCHEDMSG cfg (complete cfg g).flags = false ∧
    IS_MLD_WAITMSG cfg (complete cfg g).flags = true ∧
    0 < (complete cfg g).sem := by
  simp [complete, hw]

/-- C8 (no lost wakeup): in a call in which scheduling succeeded, let the
waits be: any number of spurious ones (Interrupted or Canceled), then the
wait during which the environment performs `complete`, ending with a unit
taken, Interrupted or Canceled, then again any number of spurious ones,
and then a wait that asks for a unit.  The call is never left blocked: it
returns `OK` with both flags clear, after the wait with the `complete` or
at the latest after the first wait that asks for a unit. -/
theorem mld_waitmsg_no_lost_wakeup (cfg : Config) (devs : Devices) (group : mld_group_s)
    (m : Nat) (pre post tail : List WaitEvent) (w : Wake)
    (hs : scheduling_succeeded cfg devs group m = true)
    (hpre : ∀ e ∈ pre, e.spurious) (hpost : ∀ e ∈ post, e.spurious)
    (hw : w = .taken ∨ w = .interrupted ∨ w = .canceled) :
    (mld_waitmsg cfg devs
        ⟨[], pre ++ ⟨[.complete], w⟩ :: (post ++ ⟨[], .taken⟩ :: tail)⟩ group m).status
      = .returned OK ∧
    IS_MLD_SCHEDMSG cfg (mld_waitmsg cfg devs
        ⟨[], pre ++ ⟨[.complete], w⟩ :: (post ++ ⟨[], .taken⟩ :: tail)⟩ group m).group.flags
      = false ∧
    IS_MLD_WAITMSG cfg (mld_waitmsg cfg devs
        ⟨[], pre ++ ⟨[.complete], w⟩ :: (post ++ ⟨[], .taken⟩ :: tail)⟩ group m).group.flags
      = false ∧
    pre.length + 1 ≤ (mld_waitmsg cfg devs
        ⟨[], pre ++ ⟨[.complete], w⟩ :: (post ++ ⟨[], .taken⟩ :: tail)⟩ group m).waits ∧
    (mld_waitmsg cfg devs
        ⟨[], pre ++ ⟨[.complete], w⟩ :: (post ++ ⟨[], .taken⟩ :: tail)⟩ group m).waits
      ≤ pre.length + 1 + post.length + 1 := by
  obtain ⟨e1, e2, e3⟩ := mld_waitmsg_of_succeeded cfg devs
    ⟨[], pre ++ ⟨[.complete], w⟩ :: (post ++ ⟨[], .taken⟩ :: tail)⟩ group m hs
  rw [e1, e2, e3]
  -- the record on which the loop starts: both flags set
  have g0s : IS_MLD_SCHEDMSG cfg
      (scheduled cfg ⟨[], pre ++ ⟨[.complete], w⟩ :: (post ++ ⟨[], .taken⟩ :: tail)⟩
        group m).flags = true := by
    simp [scheduled, runEnv]
  have g0w : IS_MLD_WAITMSG cfg
      (scheduled cfg ⟨[], pre ++ ⟨[.complete], w⟩ :: (post ++ ⟨[], .taken⟩ :: tail)⟩
        group m).flags = true := by
    simp [scheduled, runEnv, waiting]
  generalize scheduled cfg ⟨[], pre ++ ⟨[.complete], w⟩ :: (post ++ ⟨[], .taken⟩ :: tail)⟩
    group m = g0 at g0s g0w ⊢
  simp only [sched_loop, g0s, if_true]
  obtain ⟨p1, p2, p3⟩ := wait_loop_spurious cfg pre
    (⟨[.complete], w⟩ :: (post ++ ⟨[], .taken⟩ :: tail)) hpre g0
  rw [p1, p2, p3]
  obtain ⟨c1, c2, c3⟩ := complete_posts cfg g0 g0w
  have hrun : runEnv cfg [.complete] g0 = complete cfg g0 := rfl
  rcases hw with hw | hw | hw <;> subst hw
  · obtain ⟨q1, q2, q3, q4⟩ := wait_loop_taken_exit cfg [.complete]
      (post ++ ⟨[], .taken⟩ :: tail) g0 (by rw [hrun]; exact c3) (by rw [hrun]; exact c1)
    rw [q1, q2, q3, q4]
    exact ⟨rfl, rfl, rfl, by omega, by omega⟩
  · rw [wait_loop_interrupted, hrun]
    simp only [Run.seq_status, Run.seq_group, Run.seq_waits]
    obtain ⟨r1, r2, r3⟩ := wait_loop_spurious cfg post (⟨[], .taken⟩ :: tail) hpost
      (complete cfg g0)
    rw [r1, r2, r3]
    obtain ⟨q1, q2, q3, q4⟩ := wait_loop_taken_exit cfg [] tail (complete cfg g0) c3 c1
    rw [q1, q2, q3, q4]
    exact ⟨rfl, rfl, rfl, by omega, by omega⟩
  · rw [wait_loop_canceled, hrun]
    simp only [Run.seq_status, Run.seq_group, Run.seq_waits]
    obtain ⟨r1, r2, r3⟩ := wait_loop_spurious cfg post (⟨[], .taken⟩ :: tail) hpost
      (complete cfg g0)
    rw [r1, r2, r3]
    obtain ⟨q1, q2, q3, q4⟩ := wait_loop_taken_exit cfg [] tail (complete cfg g0) c3 c1
    rw [q1, q2, q3, q4]
    exact ⟨rfl, rfl, rfl, by omega, by omega⟩

/-- C8 with one interrupted wait before the wait of the `complete`, that
wait canceled, one more interrupted wait and then the wait that takes the
unit: four waits, `OK`, both flags clear. -/
theorem mld_waitmsg_no_lost_wakeup_witness :
    scheduling_succeeded (nuttx true) oneDev fresh 131 = true ∧
    ((mld_waitmsg (nuttx true) oneDev
        ⟨[], [⟨[], .interrupted⟩, ⟨[.complete], .canceled⟩, ⟨[], .interrupted⟩, ⟨[], .taken⟩]⟩
        fresh 131).status = .returned OK ∧
     IS_MLD_SCHEDMSG (nuttx true) (mld_waitmsg (nuttx true) oneDev
        ⟨[], [⟨[], .interrupted⟩, ⟨[.complete], .canceled⟩, ⟨[], .interrupted⟩, ⟨[], .taken⟩]⟩
        fresh 131).group.flags = false ∧
     IS_MLD_WAITMSG (nuttx true) (mld_waitmsg (nuttx true) oneDev
        ⟨[], [⟨[], .interrupted⟩, ⟨[.complete], .canceled⟩, ⟨[], .interrupted⟩, ⟨[], .taken⟩]⟩
        fresh 131).group.flags = false ∧
     2 ≤ (mld_waitmsg (nuttx true) oneDev
        ⟨[], [⟨[], .interrupted⟩, ⟨[.complete], .canceled⟩, ⟨[], .interrupted⟩, ⟨[], .taken⟩]⟩
        fresh 131).waits ∧
     (mld_waitmsg (nuttx true) oneDev
        ⟨[], [⟨[], .interrupted⟩, ⟨[.complete], .canceled⟩, ⟨[], .interrupted⟩, ⟨[], .taken⟩]⟩
        fresh 131).waits ≤ 4) :=
  ⟨by decide,
    mld_waitmsg_no_lost_wakeup (nuttx true) oneDev fresh 131
      [⟨[], .interrupted⟩] [⟨[], .interrupted⟩] [] .canceled (by decide)
      (by simp [WaitEvent.spurious]) (by simp [WaitEvent.spurious]) (Or.inr (Or.inr rfl))⟩

/-! ## What the two functions leave alone -/

/-- C9: `mld_schedmsg` changes nothing in the record but `msgtype` and the
scheduled bit of `flags`: however the call ends, the interface index, the
group address, the compatibility mode and the count of the wait signal
are as before, and so are the waiting bit and every flag bit other than
the scheduled one. -/
theorem mld_schedmsg_frame (cfg : Config) (devs : Devices) (group : mld_group_s) (m : Nat) :
    (mld_schedmsg cfg devs group m).group.ifindex = group.ifindex ∧
    (mld_schedmsg cfg devs group m).group.grpaddr = group.grpaddr ∧
    (mld_schedmsg cfg devs group m).group.compat = group.compat ∧
    (mld_schedmsg cfg devs group m).group.sem = group.sem ∧
    IS_MLD_WAITMSG cfg (mld_schedmsg cfg devs group m).group.flags
      = IS_MLD_WAITMSG cfg group.flags ∧
    ∀ i, i ≠ cfg.MLD_SCHEDMSG →
      (mld_schedmsg cfg devs group m).group.flags.testBit i = group.flags.testBit i := by
  cases ha : schedmsg_asserts cfg group
  · rw [mld_schedmsg_asserted cfg devs group m ha]
    simp
  · cases hdev : devs.netdev_findbyindex group.ifindex with
    | none =>
      rw [mld_schedmsg_none cfg devs group m ha hdev]
      simp
    | some dev =>
      rw [mld_schedmsg_some cfg devs group m dev ha hdev]
      refine ⟨rfl, rfl, rfl, rfl, by simp, fun i hi => ?_⟩
      exact testBit_set_sched cfg group.flags i hi

/-- C9 on a record in legacy mode with the waiting flag set and three units
of the wait signal: only `msgtype` and the scheduled bit change. -/
theorem mld_schedmsg_frame_witness :
    (mld_schedmsg (nuttx true) oneDev ⟨1, 0xff02, true, 0, 32, 3⟩ 131).group
      = ⟨1, 0xff02, true, 131, 48, 3⟩ ∧
    ((mld_schedmsg (nuttx true) oneDev ⟨1, 0xff02, true, 0, 32, 3⟩ 131).group.ifindex = 1 ∧
     (mld_schedmsg (nuttx true) oneDev ⟨1, 0xff02, true, 0, 32, 3⟩ 131).group.grpaddr = 0xff02 ∧
     (mld_schedmsg (nuttx true) oneDev ⟨1, 0xff02, true, 0, 32, 3⟩ 131).group.compat = true ∧
     (mld_schedmsg (nuttx true) oneDev ⟨1, 0xff02, true, 0, 32, 3⟩ 131).group.sem = 3 ∧
     IS_MLD_WAITMSG (nuttx true)
        (mld_schedmsg (nuttx true) oneDev ⟨1, 0xff02, true, 0, 32, 3⟩ 131).group.flags
       = IS_MLD_WAITMSG (nuttx true) 32 ∧
     ∀ i, i ≠ (nuttx true).MLD_SCHEDMSG →
       (mld_schedmsg (nuttx true) oneDev ⟨1, 0xff02, true, 0, 32, 3⟩ 131).group.flags.testBit i
         = Nat.testBit 32 i) :=
  ⟨by decide, mld_schedmsg_frame (nuttx true) oneDev ⟨1, 0xff02, true, 0, 32, 3⟩ 131⟩

/-! ## Who clears the scheduled flag -/

theorem chained_append (a b c : mld_group_s) (xs ys : List Step)
    (h1 : chained a xs b) (h2 : chained b ys c) : chained a (xs ++ ys) c := by
  induction xs generalizing a with
  | nil =>
    simp only [chained] at h1
    subst h1
    simpa using h2
  | cons x xs ih =>
    obtain ⟨hx, hrest⟩ := h1
    exact ⟨hx, ih _ hrest⟩

/-- A step that keeps the flag bit-set as it is clears nothing. -/
theorem Step.clearsOnlyByComplete_of_flags (cfg : Config) (s : Step)
    (h : IS_MLD_SCHEDMSG cfg s.after.flags = IS_MLD_SCHEDMSG cfg s.before.flags) :
    s.clearsOnlyByComplete cfg := by
  intro h1 h2
  rw [h, h1] at h2
  cases h2

theorem Run.traceOk_seq (cfg : Config) (g : mld_group_s) (a b : Run)
    (ha : a.traceOk cfg g) (hb : b.traceOk cfg a.group) : (a.seq b).traceOk cfg g := by
  refine ⟨chained_append _ _ _ _ _ ha.1 hb.1, ?_⟩
  intro s hs
  simp only [Run.seq_steps, List.mem_append] at hs
  rcases hs with hs | hs
  · exact ha.2 s hs
  · exact hb.2 s hs

theorem envSteps_traceOk (cfg : Config) (as : List EnvAct) (g : mld_group_s) (st : Status)
    (n : List Nat) (w : Nat) :
    Run.traceOk cfg g ⟨st, runEnv cfg as g, envSteps cfg as g, n, w⟩ := by
  induction as generalizing g with
  | nil => exact ⟨rfl, by simp [envSteps]⟩
  | cons a as ih =>
    obtain ⟨h1, h2⟩ := ih (a.apply cfg g)
    refine ⟨⟨rfl, h1⟩, ?_⟩
    intro s hs
    simp only [envSteps, List.mem_cons] at hs
    rcases hs with hs | hs
    · subst hs
      cases a with
      | complete => exact fun _ _ => ⟨rfl, rfl⟩
      | schedule m =>
        intro _ hc
        simp [EnvAct.apply] at hc
    · exact h2 s hs

/-- The writes of one `net_lockedwait` that ends. -/
theorem waitSteps_traceOk (cfg : Config) (e : WaitEvent) (g g2 : mld_group_s) (ret : Int)
    (st : Status) (n : List Nat) (w : Nat) (h : net_lockedwait cfg e g = some (ret, g2)) :
    Run.traceOk cfg g ⟨st, g2, waitSteps cfg e g, n, w⟩ := by
  obtain ⟨env, wake⟩ := e
  have henv := envSteps_traceOk cfg env g st n w
  cases wake with
  | taken =>
    by_cases hs : 0 < (runEnv cfg env g).sem
    · simp only [net_lockedwait, hs, if_true, Option.some.injEq, Prod.mk.injEq] at h
      obtain ⟨_, h⟩ := h
      subst h
      have step : Run.traceOk cfg (runEnv cfg env g)
          ⟨st, { runEnv cfg env g with sem := (runEnv cfg env g).sem - 1 },
            [⟨.lockedwait, runEnv cfg env g,
              { runEnv cfg env g with sem := (runEnv cfg env g).sem - 1 }⟩], n, w⟩ := by
        refine ⟨⟨rfl, rfl⟩, ?_⟩
        intro s hs2
        simp only [List.mem_singleton] at hs2
        subst hs2
        exact Step.clearsOnlyByComplete_of_flags cfg _ rfl
      have := Run.traceOk_seq cfg g _ _ henv step
      simpa [Run.traceOk, Run.seq, waitSteps, hs] using this
    · simp [net_lockedwait, hs] at h
  | interrupted =>
    simp only [net_lockedwait, Option.some.injEq, Prod.mk.injEq] at h
    obtain ⟨_, h⟩ := h
    subst h
    simpa [Run.traceOk, waitSteps] using henv
  | canceled =>
    simp only [net_lockedwait, Option.some.injEq, Prod.mk.injEq] at h
    obtain ⟨_, h⟩ := h
    subst h
    simpa [Run.traceOk, waitSteps] using henv
  | failed k =>
    simp only [net_lockedwait, Option.some.injEq, Prod.mk.injEq] at h
    obtain ⟨_, h⟩ := h
    subst h
    simpa [Run.traceOk, waitSteps] using henv

theorem errout_traceOk (cfg : Config) (ret : Int) (g : mld_group_s) :
    (errout cfg ret g).traceOk cfg g := by
  refine ⟨⟨rfl, rfl⟩, ?_⟩
  intro s hs
  simp only [errout_steps, List.mem_singleton] at hs
  subst hs
  exact Step.clearsOnlyByComplete_of_flags cfg _ (by simp)

theorem asserted_traceOk (cfg : Config) (g : mld_group_s) :
    Run.traceOk cfg g ⟨.asserted, g, [], [], 0⟩ :=
  ⟨rfl, by simp⟩

/-- The writes of a `net_lockedwait` that leaves the task blocked. -/
theorem waitSteps_blocked_traceOk (cfg : Config) (e : WaitEvent) (g : mld_group_s)
    (h : net_lockedwait cfg e g = none) :
    Run.traceOk cfg g ⟨.blocked, runEnv cfg e.env g, waitSteps cfg e g, [], 1⟩ := by
  obtain ⟨env, wake⟩ := e
  have henv := envSteps_traceOk cfg env g .blocked [] 1
  cases wake with
  | taken =>
    by_cases hs : 0 < (runEnv cfg env g).sem
    · simp [net_lockedwait, hs] at h
    · simpa [Run.traceOk, waitSteps, hs] using henv
  | interrupted => simp [net_lockedwait] at h
  | canceled => simp [net_lockedwait] at h
  | failed k => simp [net_lockedwait] at h

/-- The trace of the loop, whatever the script. -/
theorem wait_loop_traceOk (cfg : Config) (ws : List WaitEvent) :
    ∀ g, (wait_loop cfg ws g).traceOk cfg g := by
  induction ws with
  | nil =>
    intro g
    exact ⟨rfl, by simp [wait_loop]⟩
  | cons e rest ih =>
    intro g
    cases h : net_lockedwait cfg e g with
    | none =>
      have hb : wait_loop cfg (e :: rest) g =
          ⟨.blocked, runEnv cfg e.env g, waitSteps cfg e g, [], 1⟩ := by
        simp [wait_loop, h]
      rw [hb]
      exact waitSteps_blocked_traceOk cfg e g h
    | some p =>
      obtain ⟨ret, g2⟩ := p
      have hw := waitSteps_traceOk cfg e g g2 ret .blocked [] 1 h
      have key : ∃ X : Run, X.traceOk cfg g2 ∧
          wait_loop cfg (e :: rest) g = Run.seq ⟨.blocked, g2, waitSteps cfg e g, [], 1⟩ X := by
        simp only [wait_loop, h]
        split_ifs
        · exact ⟨_, asserted_traceOk cfg g2, rfl⟩
        · exact ⟨_, ih g2, rfl⟩
        · exact ⟨_, errout_traceOk cfg ret g2, rfl⟩
        · exact ⟨_, ih g2, rfl⟩
        · exact ⟨_, ih g2, rfl⟩
        · exact ⟨_, errout_traceOk cfg ret g2, rfl⟩
      obtain ⟨X, hX, heq⟩ := key
      rw [heq]
      exact Run.traceOk_seq cfg g _ X hw hX

theorem sched_loop_traceOk (cfg : Config) (ws : List WaitEvent) (ret : Int) (g : mld_group_s) :
    (sched_loop cfg ws ret g).traceOk cfg g := by
  unfold sched_loop
  split
  · exact wait_loop_traceOk cfg ws g
  · exact errout_traceOk cfg ret g

theorem mld_schedmsg_traceOk (cfg : Config) (devs : Devices) (g : mld_group_s) (m : Nat) :
    (mld_schedmsg cfg devs g m).traceOk cfg g ∧
    ∀ s ∈ (mld_schedmsg cfg devs g m).steps,
      s.actor = .schedmsg ∧
      (IS_MLD_SCHEDMSG cfg s.before.flags = true → IS_MLD_SCHEDMSG cfg s.after.flags = true) := by
  cases ha : schedmsg_asserts cfg g
  · rw [mld_schedmsg_asserted cfg devs g m ha]
    exact ⟨⟨rfl, by simp⟩, by simp⟩
  · cases hdev : devs.netdev_findbyindex g.ifindex with
    | none =>
      rw [mld_schedmsg_none cfg devs g m ha hdev]
      exact ⟨⟨rfl, by simp⟩, by simp⟩
    | some dev =>
      rw [mld_schedmsg_some cfg devs g m dev ha hdev]
      refine ⟨⟨⟨rfl, rfl, rfl⟩, ?_⟩, ?_⟩
      · intro s hs
        simp only [List.mem_cons, List.mem_singleton, List.not_mem_nil, or_false] at hs
        rcases hs with hs | hs <;> subst hs
        · exact Step.clearsOnlyByComplete_of_flags cfg _ rfl
        · intro _ hc
          simp at hc
      · intro s hs
        simp only [List.mem_cons, List.mem_singleton, List.not_mem_nil, or_false] at hs
        rcases hs with hs | hs <;> subst hs
        · exact ⟨rfl, fun h => h⟩
        · exact ⟨rfl, fun _ => by simp⟩

/-- The first write of `mld_waitmsg`, which sets the waiting flag. -/
theorem waiting_traceOk (cfg : Config) (g : mld_group_s) (st : Status) (n : List Nat) (w : Nat) :
    Run.traceOk cfg g ⟨st, waiting cfg g, [⟨.waitmsg, g, waiting cfg g⟩], n, w⟩ := by
  refine ⟨⟨rfl, rfl⟩, ?_⟩
  intro s hs
  simp only [List.mem_singleton] at hs
  subst hs
  exact Step.clearsOnlyByComplete_of_flags cfg _ (by simp [waiting])

theorem mld_waitmsg_traceOk (cfg : Config) (devs : Devices) (script : Script)
    (g : mld_group_s) (m : Nat) : (mld_waitmsg cfg devs script g m).traceOk cfg g := by
  cases h : (cfg.assertions && IS_MLD_WAITMSG cfg g.flags)
  · cases ha : schedmsg_asserts cfg (waiting cfg g)
    · rw [mld_waitmsg_sched_asserted cfg devs script g m h ha]
      exact waiting_traceOk cfg g _ _ _
    · cases hdev : devs.netdev_findbyindex g.ifindex with
      | none =>
        rw [mld_waitmsg_nodev cfg devs script g m h ha hdev]
        exact Run.traceOk_seq cfg g _ _ (waiting_traceOk cfg g _ _ _) (errout_traceOk cfg _ _)
      | some dev =>
        rw [mld_waitmsg_scheduled cfg devs script g m dev h ha hdev]
        refine Run.traceOk_seq cfg g _ _ ?_ (sched_loop_traceOk cfg _ _ _)
        have a := waiting_traceOk cfg g .blocked [] 0
        have b := (mld_schedmsg_traceOk cfg devs (waiting cfg g) m).1
        have c := envSteps_traceOk cfg script.txavail (mld_schedmsg cfg devs (waiting cfg g) m).group
          .blocked [dev] 0
        have hg : runEnv cfg script.txavail (mld_schedmsg cfg devs (waiting cfg g) m).group
            = scheduled cfg script g m := by
          rw [mld_schedmsg_some cfg devs (waiting cfg g) m dev ha hdev]
          rfl
        rw [hg] at c
        have ab := Run.traceOk_seq cfg g _ _ a b
        have abc := Run.traceOk_seq cfg g _ _ ab c
        simpa [Run.traceOk, Run.seq] using abc
  · rw [mld_waitmsg_asserted cfg devs script g m h]
    exact asserted_traceOk cfg g

/-- C10: neither `mld_schedmsg` nor `mld_waitmsg` ever clears the scheduled
flag.  The writes of a call of `mld_schedmsg` lead from the record of the
call to the record it leaves, all are made by `mld_schedmsg`, and none
takes the scheduled flag from set to clear.  The writes made during a call
of `mld_waitmsg` (its own, those of the nested `mld_schedmsg`, those of
`net_lockedwait` and those of the environment) lead from the record of the
call to the record it leaves, whatever the script and however the call
ends, and every one that takes the scheduled flag from set to clear is a
`complete` of the environment. -/
theorem scheduled_flag_cleared_only_by_complete (cfg : Config) (devs : Devices)
    (script : Script) (group : mld_group_s) (m : Nat) :
    (chained group (mld_schedmsg cfg devs group m).steps (mld_schedmsg cfg devs group m).group ∧
      ∀ s ∈ (mld_schedmsg cfg devs group m).steps,
        s.actor = .schedmsg ∧
        (IS_MLD_SCHEDMSG cfg s.before.flags = true →
          IS_MLD_SCHEDMSG cfg s.after.flags = true)) ∧
    (chained group (mld_waitmsg cfg devs script group m).steps
        (mld_waitmsg cfg devs script group m).group ∧
      ∀ s ∈ (mld_waitmsg cfg devs script group m).steps,
        IS_MLD_SCHEDMSG cfg s.before.flags = true →
        IS_MLD_SCHEDMSG cfg s.after.flags = false →
          s.actor = .env .complete ∧ s.after = complete cfg s.before) :=
  ⟨⟨(mld_schedmsg_traceOk cfg devs group m).1.1, (mld_schedmsg_traceOk cfg devs group m).2⟩,
    mld_waitmsg_traceOk cfg devs script group m⟩

/-- C10 on a run in which the message is completed during a canceled wait:
the trace holds a write that clears the scheduled flag, and it is the
`complete` of the environment. -/
theorem scheduled_flag_cleared_only_by_complete_witness :
    (∃ s ∈ (mld_waitmsg (nuttx true) oneDev
        ⟨[], [⟨[], .interrupted⟩, ⟨[.complete], .canceled⟩, ⟨[], .taken⟩]⟩ fresh 131).steps,
      IS_MLD_SCHEDMSG (nuttx true) s.before.flags = true ∧
      IS_MLD_SCHEDMSG (nuttx true) s.after.flags = false) ∧
    ((chained fresh (mld_schedmsg (nuttx true) oneDev fresh 131).steps
        (mld_schedmsg (nuttx true) oneDev fresh 131).group ∧
      ∀ s ∈ (mld_schedmsg (nuttx true) oneDev fresh 131).steps,
        s.actor = .schedmsg ∧
        (IS_MLD_SCHEDMSG (nuttx true) s.before.flags = true →
          IS_MLD_SCHEDMSG (nuttx true) s.after.flags = true)) ∧
     (chained fresh (mld_waitmsg (nuttx true) oneDev
          ⟨[], [⟨[], .interrupted⟩, ⟨[.complete], .canceled⟩, ⟨[], .taken⟩]⟩ fresh 131).steps
        (mld_waitmsg (nuttx true) oneDev
          ⟨[], [⟨[], .interrupted⟩, ⟨[.complete], .canceled⟩, ⟨[], .taken⟩]⟩ fresh 131).group ∧
      ∀ s ∈ (mld_waitmsg (nuttx true) oneDev
          ⟨[], [⟨[], .interrupted⟩, ⟨[.complete], .canceled⟩, ⟨[], .taken⟩]⟩ fresh 131).steps,
        IS_MLD_SCHEDMSG (nuttx true) s.before.flags = true →
        IS_MLD_SCHEDMSG (nuttx true) s.after.flags = false →
          s.actor = .env .complete ∧ s.after = complete (nuttx true) s.before)) :=
  ⟨by decide,
    scheduled_flag_cleared_only_by_complete (nuttx true) oneDev
      ⟨[], [⟨[], .interrupted⟩, ⟨[.complete], .canceled⟩, ⟨[], .taken⟩]⟩ fresh 131⟩

/-! ## After an interrupted or canceled wait -/

/-- The record on which the loop is entered has both flags set and the
message type of the call. -/
theorem entered_flags (cfg : Config) (g : mld_group_s) (m : Nat) :
    IS_MLD_SCHEDMSG cfg (entered cfg g m).flags = true ∧
    IS_MLD_WAITMSG cfg (entered cfg g m).flags = true ∧
    (entered cfg g m).msgtype = m := by
  simp [entered, scheduled, runEnv, waiting]

/-- When scheduling succeeded and the driver leaves the record alone inside
the notification, the call is the inner loop on the record `entered`. -/
theorem mld_waitmsg_enters (cfg : Config) (devs : Devices) (ws : List WaitEvent)
    (g : mld_group_s) (m : Nat) (hs : scheduling_succeeded cfg devs g m = true) :
    (mld_waitmsg cfg devs ⟨[], ws⟩ g m).status = (wait_loop cfg ws (entered cfg g m)).status ∧
    (mld_waitmsg cfg devs ⟨[], ws⟩ g m).group = (wait_loop cfg ws (entered cfg g m)).group ∧
    (mld_waitmsg cfg devs ⟨[], ws⟩ g m).waits = (wait_loop cfg ws (entered cfg g m)).waits := by
  obtain ⟨e1, e2, e3⟩ := mld_waitmsg_of_succeeded cfg devs ⟨[], ws⟩ g m hs
  have hg : scheduled cfg ⟨[], ws⟩ g m = entered cfg g m := rfl
  rw [e1, e2, e3, hg]
  simp [sched_loop, (entered_flags cfg g m).1]

/-- After a wait that ends with Interrupted or Canceled the loop is in
`net_lockedwait` again, on the record as the other tasks left it. -/
theorem wait_loop_retry (cfg : Config) (env : List EnvAct) (w : Wake) (rest : List WaitEvent)
    (g : mld_group_s) (hw : w = .interrupted ∨ w = .canceled) :
    (wait_loop cfg (⟨env, w⟩ :: rest) g).status = (wait_loop cfg rest (runEnv cfg env g)).status ∧
    (wait_loop cfg (⟨env, w⟩ :: rest) g).group = (wait_loop cfg rest (runEnv cfg env g)).group ∧
    (wait_loop cfg (⟨env, w⟩ :: rest) g).waits
      = 1 + (wait_loop cfg rest (runEnv cfg env g)).waits := by
  rcases hw with hw | hw <;> subst hw
  · rw [wait_loop_interrupted]
    exact ⟨rfl, rfl, rfl⟩
  · rw [wait_loop_canceled]
    exact ⟨rfl, rfl, rfl⟩

/-- C11 fails: the message is completed during the first wait, which ends
with Interrupted, so the scheduled flag is clear right after that wait;
`mld_waitmsg` still makes a second wait before it returns, and with no
second wait in the script it is blocked in `net_lockedwait`. -/
theorem mld_waitmsg_recheck_counterexample :
    scheduling_succeeded (nuttx true) oneDev fresh 131 = true ∧
    IS_MLD_SCHEDMSG (nuttx true)
      (runEnv (nuttx true) [.complete] (entered (nuttx true) fresh 131)).flags = false ∧
    (mld_waitmsg (nuttx true) oneDev
      ⟨[], [⟨[.complete], .interrupted⟩, ⟨[], .taken⟩]⟩ fresh 131).status = .returned 0 ∧
    (mld_waitmsg (nuttx true) oneDev
      ⟨[], [⟨[.complete], .interrupted⟩, ⟨[], .taken⟩]⟩ fresh 131).waits = 2 ∧
    (mld_waitmsg (nuttx true) oneDev
      ⟨[], [⟨[.complete], .interrupted⟩]⟩ fresh 131).status = .blocked := by
  decide

/-- C11 as amended: after a wait that ends with Interrupted or Canceled,
`mld_waitmsg` does not look at the scheduled flag: whatever the flag is at
that moment, it calls `net_lockedwait` again, and the call goes on as the
loop does from that next wait.  So the call never returns right after such
a wait (a return comes after at least one more wait), and with no further
wait in the script the task is blocked.  The waits before the one looked
at are any number of spurious ones. -/
theorem mld_waitmsg_retry_without_recheck (cfg : Config) (devs : Devices)
    (group : mld_group_s) (m : Nat) (pre rest : List WaitEvent) (env : List EnvAct) (w : Wake)
    (hs : scheduling_succeeded cfg devs group m = true)
    (hpre : ∀ e ∈ pre, e.spurious) (hw : w = .interrupted ∨ w = .canceled) :
    (mld_waitmsg cfg devs ⟨[], pre ++ ⟨env, w⟩ :: rest⟩ group m).status
      = (wait_loop cfg rest (runEnv cfg env (entered cfg group m))).status ∧
    (mld_waitmsg cfg devs ⟨[], pre ++ ⟨env, w⟩ :: rest⟩ group m).group
      = (wait_loop cfg rest (runEnv cfg env (entered cfg group m))).group ∧
    (mld_waitmsg cfg devs ⟨[], pre ++ ⟨env, w⟩ :: rest⟩ group m).waits
      = pre.length + 1 + (wait_loop cfg rest (runEnv cfg env (entered cfg group m))).waits ∧
    (∀ ret, (mld_waitmsg cfg devs ⟨[], pre ++ ⟨env, w⟩ :: rest⟩ group m).status = .returned ret →
      pre.length + 2 ≤ (mld_waitmsg cfg devs ⟨[], pre ++ ⟨env, w⟩ :: rest⟩ group m).waits) ∧
    (rest = [] →
      (mld_waitmsg cfg devs ⟨[], pre ++ ⟨env, w⟩ :: rest⟩ group m).status = .blocked) := by
  obtain ⟨a1, a2, a3⟩ := mld_waitmsg_enters cfg devs (pre ++ ⟨env, w⟩ :: rest) group m hs
  obtain ⟨b1, b2, b3⟩ := wait_loop_spurious cfg pre (⟨env, w⟩ :: rest) hpre (entered cfg group m)
  obtain ⟨c1, c2, c3⟩ := wait_loop_retry cfg env w rest (entered cfg group m) hw
  have hst := a1.trans (b1.trans c1)
  have hwt : (mld_waitmsg cfg devs ⟨[], pre ++ ⟨env, w⟩ :: rest⟩ group m).waits
      = pre.length + 1 + (wait_loop cfg rest (runEnv cfg env (entered cfg group m))).waits := by
    rw [a3, b3, c3]
    omega
  refine ⟨hst, a2.trans (b2.trans c2), hwt, ?_, ?_⟩
  · intro ret hret
    rw [hst] at hret
    have hpos := (wait_loop_returned_last cfg rest _ ret hret).1
    rw [hwt]
    omega
  · intro hrest
    rw [hst, hrest, wait_loop_nil]

/-- C11 as amended, on the run in which the message is completed during an
interrupted first wait: two waits are made. -/
theorem mld_waitmsg_retry_without_recheck_witness :
    scheduling_succeeded (nuttx true) oneDev fresh 131 = true ∧
    (mld_waitmsg (nuttx true) oneDev
      ⟨[], [⟨[.complete], .interrupted⟩, ⟨[], .taken⟩]⟩ fresh 131).status = .returned 0 ∧
    2 ≤ (mld_waitmsg (nuttx true) oneDev
      ⟨[], [⟨[.complete], .interrupted⟩, ⟨[], .taken⟩]⟩ fresh 131).waits :=
  ⟨by decide, by decide,
    (mld_waitmsg_retry_without_recheck (nuttx true) oneDev fresh 131 [] [⟨[], .taken⟩]
      [.complete] .interrupted (by decide) (by simp) (Or.inl rfl)).2.2.2.1 0 (by decide)⟩

/-! ## The order of the two writes of `mld_schedmsg` -/

/-- C12: in `mld_schedmsg(group, m)` the message type is written before the
scheduled flag is set.  The writes of the call lead from the record of the
call to the record it leaves; the write that takes the scheduled flag from
clear to set finds `msgtype = m` already there and leaves it; and when the
flag was clear at the call, every state the record goes through (before
or after any write of the call) in which the flag is set has
`msgtype = m`. -/
theorem mld_schedmsg_msgtype_first (cfg : Config) (devs : Devices) (group : mld_group_s)
    (m : Nat) :
    chained group (mld_schedmsg cfg devs group m).steps (mld_schedmsg cfg devs group m).group ∧
    (∀ s ∈ (mld_schedmsg cfg devs group m).steps,
      IS_MLD_SCHEDMSG cfg s.before.flags = false → IS_MLD_SCHEDMSG cfg s.after.flags = true →
        s.before.msgtype = m ∧ s.after.msgtype = m) ∧
    (IS_MLD_SCHEDMSG cfg group.flags = false →
      ∀ s ∈ (mld_schedmsg cfg devs group m).steps,
        (IS_MLD_SCHEDMSG cfg s.before.flags = true → s.before.msgtype = m) ∧
        (IS_MLD_SCHEDMSG cfg s.after.flags = true → s.after.msgtype = m)) := by
  cases ha : schedmsg_asserts cfg group
  · rw [mld_schedmsg_asserted cfg devs group m ha]
    exact ⟨rfl, by simp, by simp⟩
  · cases hdev : devs.netdev_findbyindex group.ifindex with
    | none =>
      rw [mld_schedmsg_none cfg devs group m ha hdev]
      exact ⟨rfl, by simp, by simp⟩
    | some dev =>
      rw [mld_schedmsg_some cfg devs group m dev ha hdev]
      refine ⟨⟨rfl, rfl, rfl⟩, ?_, ?_⟩
      · intro s hs
        simp only [List.mem_cons, List.mem_singleton, List.not_mem_nil, or_false] at hs
        rcases hs with hs | hs <;> subst hs
        · intro h1 h2
          rw [h1] at h2
          cases h2
        · intro _ _
          exact ⟨rfl, rfl⟩
      · intro hclear s hs
        simp only [List.mem_cons, List.mem_singleton, List.not_mem_nil, or_false] at hs
        rcases hs with hs | hs <;> subst hs
        · refine ⟨fun h => ?_, fun h => ?_⟩
          · rw [hclear] at h
            cases h
          · have h2 : IS_MLD_SCHEDMSG cfg group.flags = true := h
            simp [hclear] at h2
        · exact ⟨fun _ => rfl, fun _ => rfl⟩

/-- C12 on the fresh record: the two writes of the call, in order: first
`msgtype`, then the scheduled bit. -/
theorem mld_schedmsg_msgtype_first_witness :
    (mld_schedmsg (nuttx true) oneDev fresh 131).steps =
      [⟨.schedmsg, fresh, { fresh with msgtype := 131 }⟩,
       ⟨.schedmsg, { fresh with msgtype := 131 }, { fresh with msgtype := 131, flags := 16 }⟩] ∧
    (chained fresh (mld_schedmsg (nuttx true) oneDev fresh 131).steps
        (mld_schedmsg (nuttx true) oneDev fresh 131).group ∧
     (∀ s ∈ (mld_schedmsg (nuttx true) oneDev fresh 131).steps,
        IS_MLD_SCHEDMSG (nuttx true) s.before.flags = false →
        IS_MLD_SCHEDMSG (nuttx true) s.after.flags = true →
          s.before.msgtype = 131 ∧ s.after.msgtype = 131) ∧
     (IS_MLD_SCHEDMSG (nuttx true) fresh.flags = false →
        ∀ s ∈ (mld_schedmsg (nuttx true) oneDev fresh 131).steps,
          (IS_MLD_SCHEDMSG (nuttx true) s.before.flags = true → s.before.msgtype = 131) ∧
          (IS_MLD_SCHEDMSG (nuttx true) s.after.flags = true → s.after.msgtype = 131))) :=
  ⟨by decide, mld_schedmsg_msgtype_first (nuttx true) oneDev fresh 131⟩

/-! ## Waiting for `complete` -/

/-- Actions of the environment other than `complete` leave a set scheduled
flag set. -/
theorem runEnv_keeps_scheduled (cfg : Config) (as : List EnvAct) (g : mld_group_s)
    (hg : IS_MLD_SCHEDMSG cfg g.flags = true) (hno : EnvAct.complete ∉ as) :
    IS_MLD_SCHEDMSG cfg (runEnv cfg as g).flags = true := by
  induction as generalizing g with
  | nil => exact hg
  | cons a as ih =>
    have ha : a ≠ .complete := fun h => hno (h ▸ List.mem_cons_self _ _)
    have has : EnvAct.complete ∉ as := fun h => hno (List.mem_cons_of_mem _ h)
    cases a with
    | complete => exact absurd rfl ha
    | schedule k => exact ih _ (by simp [EnvAct.apply]) has

/-- While no `complete` is performed the loop does not return: the call is
blocked (or stopped by an assertion). -/
theorem wait_loop_no_complete (cfg : Config) (ws : List WaitEvent) :
    ∀ (g : mld_group_s), IS_MLD_SCHEDMSG cfg g.flags = true →
      (∀ e ∈ ws, EnvAct.complete ∉ e.env) →
      ∀ ret, (wait_loop cfg ws g).status ≠ .returned ret := by
  induction ws with
  | nil =>
    intro g _ _ ret h
    simp [wait_loop_nil] at h
  | cons e rest ih =>
    intro g hg hno ret h
    have hrest : ∀ e2 ∈ rest, EnvAct.complete ∉ e2.env :=
      fun e2 he2 => hno e2 (List.mem_cons_of_mem _ he2)
    have henv := runEnv_keeps_scheduled cfg e.env g hg (hno e (List.mem_cons_self _ _))
    obtain ⟨env, wake⟩ := e
    simp only at henv
    cases wake with
    | taken =>
      by_cases hs : 0 < (runEnv cfg env g).sem
      · rw [wait_loop_taken cfg env rest g hs] at h
        simp only [Run.seq_status, sched_loop] at h
        rw [if_pos (by simpa using henv)] at h
        exact ih _ (by simpa using henv) hrest ret h
      · rw [wait_loop_starved cfg env rest g (by omega)] at h
        simp at h
    | interrupted =>
      rw [wait_loop_interrupted] at h
      exact ih _ henv hrest ret h
    | canceled =>
      rw [wait_loop_canceled] at h
      exact ih _ henv hrest ret h
    | failed n =>
      by_cases hr : Int.negSucc n = -(cfg.EINTR : Int) ∨ Int.negSucc n = -(cfg.ECANCELED : Int)
      · rw [wait_loop_failed_retry cfg env n rest g hr] at h
        exact ih _ henv hrest ret h
      · have h1 : Int.negSucc n ≠ -(cfg.EINTR : Int) := fun x => hr (Or.inl x)
        have h2 : Int.negSucc n ≠ -(cfg.ECANCELED : Int) := fun x => hr (Or.inr x)
        cases ha : cfg.assertions
        · rw [wait_loop_failed_break cfg env n rest g ha h1 h2] at h
          simp only [Run.seq_status, sched_loop] at h
          rw [if_pos henv] at h
          exact ih _ henv hrest ret h
        · rw [wait_loop_failed_assert cfg env n rest g ha h1 h2] at h
          simp at h

/-- Once `complete` is performed on a record whose waiting flag is set, the
loop returns: at the wait of the `complete` when that wait takes the unit,
otherwise at the first later wait that asks for a unit, the waits between
being spurious. -/
theorem wait_loop_complete_returns (cfg : Config) (pre post tail : List WaitEvent) (w : Wake)
    (g : mld_group_s) (hg : IS_MLD_WAITMSG cfg g.flags = true)
    (hpre : ∀ e ∈ pre, e.spurious) (hpost : ∀ e ∈ post, e.spurious)
    (hw : w = .taken ∨ w = .interrupted ∨ w = .canceled) :
    (wait_loop cfg (pre ++ ⟨[.complete], w⟩ :: (post ++ ⟨[], .taken⟩ :: tail)) g).status
      = .returned OK ∧
    IS_MLD_SCHEDMSG cfg
      (wait_loop cfg (pre ++ ⟨[.complete], w⟩ :: (post ++ ⟨[], .taken⟩ :: tail)) g).group.flags
      = false ∧
    IS_MLD_WAITMSG cfg
      (wait_loop cfg (pre ++ ⟨[.complete], w⟩ :: (post ++ ⟨[], .taken⟩ :: tail)) g).group.flags
      = false ∧
    pre.length + 1
      ≤ (wait_loop cfg (pre ++ ⟨[.complete], w⟩ :: (post ++ ⟨[], .taken⟩ :: tail)) g).waits ∧
    (wait_loop cfg (pre ++ ⟨[.complete], w⟩ :: (post ++ ⟨[], .taken⟩ :: tail)) g).waits
      ≤ pre.length + 1 + post.length + 1 := by
  obtain ⟨p1, p2, p3⟩ := wait_loop_spurious cfg pre
    (⟨[.complete], w⟩ :: (post ++ ⟨[], .taken⟩ :: tail)) hpre g
  rw [p1, p2, p3]
  obtain ⟨c1, c2, c3⟩ := complete_posts cfg g hg
  have hrun : runEnv cfg [.complete] g = complete cfg g := rfl
  have later : ∀ (wk : Wake), wk = .interrupted ∨ wk = .canceled →
      (wait_loop cfg (⟨[.complete], wk⟩ :: (post ++ ⟨[], .taken⟩ :: tail)) g).status
        = .returned OK ∧
      IS_MLD_SCHEDMSG cfg
        (wait_loop cfg (⟨[.complete], wk⟩ :: (post ++ ⟨[], .taken⟩ :: tail)) g).group.flags
        = false ∧
      IS_MLD_WAITMSG cfg
        (wait_loop cfg (⟨[.complete], wk⟩ :: (post ++ ⟨[], .taken⟩ :: tail)) g).group.flags
        = false ∧
      (wait_loop cfg (⟨[.complete], wk⟩ :: (post ++ ⟨[], .taken⟩ :: tail)) g).waits
        = 1 + (post.length + 1) := by
    intro wk hwk
    obtain ⟨r1, r2, r3⟩ := wait_loop_retry cfg [.complete] wk
      (post ++ ⟨[], .taken⟩ :: tail) g hwk
    rw [r1, r2, r3, hrun]
    obtain ⟨s1, s2, s3⟩ := wait_loop_spurious cfg post (⟨[], .taken⟩ :: tail) hpost
      (complete cfg g)
    rw [s1, s2, s3]
    obtain ⟨q1, q2, q3, q4⟩ := wait_loop_taken_exit cfg [] tail (complete cfg g) c3 c1
    rw [q1, q2, q3, q4]
    exact ⟨rfl, rfl, rfl, rfl⟩
  rcases hw with hw | hw | hw
  · subst hw
    obtain ⟨q1, q2, q3, q4⟩ := wait_loop_taken_exit cfg [.complete]
      (post ++ ⟨[], .taken⟩ :: tail) g (by rw [hrun]; exact c3) (by rw [hrun]; exact c1)
    rw [q1, q2, q3, q4]
    exact ⟨rfl, rfl, rfl, by omega, by omega⟩
  · obtain ⟨q1, q2, q3, q4⟩ := later w (Or.inl hw)
    rw [q1, q2, q3, q4]
    exact ⟨rfl, rfl, rfl, by omega, by omega⟩
  · obtain ⟨q1, q2, q3, q4⟩ := later w (Or.inr hw)
    rw [q1, q2, q3, q4]
    exact ⟨rfl, rfl, rfl, by omega, by omega⟩

/-- C13 fails with `DEBUGASSERT` compiled in: on the record with a Report
pending (scheduled flag set, waiting flag clear) `mld_waitmsg` neither
blocks until the `complete` nor returns success: it stops at the failed
assertion of the nested `mld_schedmsg`. -/
theorem mld_waitmsg_already_scheduled_counterexample :
    IS_MLD_SCHEDMSG (nuttx true) pendingReport.flags = true ∧
    IS_MLD_WAITMSG (nuttx true) pendingReport.flags = false ∧
    (mld_waitmsg (nuttx true) oneDev ⟨[], [⟨[.complete], .taken⟩]⟩ pendingReport 131).status
      = .asserted ∧
    (mld_waitmsg (nuttx true) oneDev ⟨[], [⟨[.complete], .taken⟩]⟩ pendingReport 131).waits
      = 0 := by
  decide

/-- C13 as amended: on a record whose scheduled flag is already set and
whose waiting flag is clear, with `DEBUGASSERT` compiled in `mld_waitmsg`
stops at the failed assertion of the nested `mld_schedmsg`, whatever the
environment does.  With `DEBUGASSERT` compiled out and a device found, the
call writes `m` over the pending message type (the write of the nested
`mld_schedmsg` is in the trace of every such call, and the record of the
call blocked in its first wait holds `m`, both flags set, the device
notified), does not return as long as no `complete` is performed, and once
the `complete` is performed (among any number of Interrupted or Canceled
waits) it returns `OK` with the scheduled and the waiting flag clear. -/
theorem mld_waitmsg_already_scheduled (cfg : Config) (devs : Devices) (group : mld_group_s)
    (m : Nat) (hset : IS_MLD_SCHEDMSG cfg group.flags = true)
    (hwait : IS_MLD_WAITMSG cfg group.flags = false) :
    (cfg.assertions = true →
      ∀ script, (mld_waitmsg cfg devs script group m).status = .asserted) ∧
    (cfg.assertions = false → ∀ dev, devs.netdev_findbyindex group.ifindex = some dev →
      (∀ script : Script,
        ⟨.schedmsg, waiting cfg group, { waiting cfg group with msgtype := m }⟩
          ∈ (mld_waitmsg cfg devs script group m).steps) ∧
      ((mld_waitmsg cfg devs ⟨[], []⟩ group m).status = .blocked ∧
        (mld_waitmsg cfg devs ⟨[], []⟩ group m).group.msgtype = m ∧
        IS_MLD_SCHEDMSG cfg (mld_waitmsg cfg devs ⟨[], []⟩ group m).group.flags = true ∧
        IS_MLD_WAITMSG cfg (mld_waitmsg cfg devs ⟨[], []⟩ group m).group.flags = true ∧
        (mld_waitmsg cfg devs ⟨[], []⟩ group m).notified = [dev]) ∧
      (∀ ws, (∀ e ∈ ws, EnvAct.complete ∉ e.env) →
        ∀ ret, (mld_waitmsg cfg devs ⟨[], ws⟩ group m).status ≠ .returned ret) ∧
      (∀ (pre post tail : List WaitEvent) (w : Wake),
        (∀ e ∈ pre, e.spurious) → (∀ e ∈ post, e.spurious) →
        (w = .taken ∨ w = .interrupted ∨ w = .canceled) →
        (mld_waitmsg cfg devs
            ⟨[], pre ++ ⟨[.complete], w⟩ :: (post ++ ⟨[], .taken⟩ :: tail)⟩ group m).status
          = .returned OK ∧
        IS_MLD_SCHEDMSG cfg (mld_waitmsg cfg devs
            ⟨[], pre ++ ⟨[.complete], w⟩ :: (post ++ ⟨[], .taken⟩ :: tail)⟩ group m).group.flags
          = false ∧
        IS_MLD_WAITMSG cfg (mld_waitmsg cfg devs
            ⟨[], pre ++ ⟨[.complete], w⟩ :: (post ++ ⟨[], .taken⟩ :: tail)⟩ group m).group.flags
          = false)) := by
  have h : (cfg.assertions && IS_MLD_WAITMSG cfg group.flags) = false := by simp [hwait]
  refine ⟨fun hc script => ?_, fun hc dev hdev => ?_⟩
  · have ha : schedmsg_asserts cfg (waiting cfg group) = false := by
      simp [schedmsg_asserts, waiting, hc, hset]
    rw [mld_waitmsg_sched_asserted cfg devs script group m h ha]
  · have ha : schedmsg_asserts cfg (waiting cfg group) = true := by
      simp [schedmsg_asserts, hc]
    have hs : scheduling_succeeded cfg devs group m = true :=
      (scheduling_succeeded_iff cfg devs group m).mpr ⟨h, ha, dev, hdev⟩
    obtain ⟨f1, f2, f3⟩ := entered_flags cfg group m
    refine ⟨?_, ?_, ?_, ?_⟩
    · intro script
      rw [mld_waitmsg_scheduled cfg devs script group m dev h ha hdev,
        mld_schedmsg_some cfg devs (waiting cfg group) m dev ha hdev]
      simp
    · obtain ⟨a1, a2, _⟩ := mld_waitmsg_enters cfg devs [] group m hs
      refine ⟨by rw [a1, wait_loop_nil], ?_, ?_, ?_, ?_⟩
      · rw [a2, wait_loop_nil]
        exact f3
      · rw [a2, wait_loop_nil]
        exact f1
      · rw [a2, wait_loop_nil]
        exact f2
      · have hg : IS_MLD_SCHEDMSG cfg (scheduled cfg ⟨[], []⟩ group m).flags = true := f1
        rw [mld_waitmsg_scheduled cfg devs ⟨[], []⟩ group m dev h ha hdev]
        simp [sched_loop, hg, wait_loop_nil]
    · intro ws hno ret
      rw [(mld_waitmsg_enters cfg devs ws group m hs).1]
      exact wait_loop_no_complete cfg ws _ f1 hno ret
    · intro pre post tail w hpre hpost hw
      obtain ⟨a1, a2, _⟩ := mld_waitmsg_enters cfg devs
        (pre ++ ⟨[.complete], w⟩ :: (post ++ ⟨[], .taken⟩ :: tail)) group m hs
      rw [a1, a2]
      obtain ⟨r1, r2, r3, _⟩ := wait_loop_complete_returns cfg pre post tail w
        (entered cfg group m) f2 hpre hpost hw
      exact ⟨r1, r2, r3⟩

/-- C13 as amended, on the record with a Report pending, `DEBUGASSERT`
compiled out: the Report is replaced by the message of the call, and after
an interrupted wait and the wait of the `complete` the call returns `OK`
with both flags clear. -/
theorem mld_waitmsg_already_scheduled_witness :
    (IS_MLD_SCHEDMSG (nuttx false) pendingReport.flags = true ∧
      IS_MLD_WAITMSG (nuttx false) pendingReport.flags = false) ∧
    (pendingReport.msgtype = 131 ∧
      (mld_waitmsg (nuttx false) oneDev ⟨[], []⟩ pendingReport 132).status = .blocked ∧
      (mld_waitmsg (nuttx false) oneDev ⟨[], []⟩ pendingReport 132).group.msgtype = 132) ∧
    (mld_waitmsg (nuttx false) oneDev
        ⟨[], [⟨[], .interrupted⟩, ⟨[.complete], .taken⟩, ⟨[], .taken⟩]⟩ pendingReport 132).status
      = .returned OK ∧
    IS_MLD_SCHEDMSG (nuttx false) (mld_waitmsg (nuttx false) oneDev
        ⟨[], [⟨[], .interrupted⟩, ⟨[.complete], .taken⟩, ⟨[], .taken⟩]⟩
        pendingReport 132).group.flags = false ∧
    IS_MLD_WAITMSG (nuttx false) (mld_waitmsg (nuttx false) oneDev
        ⟨[], [⟨[], .interrupted⟩, ⟨[.complete], .taken⟩, ⟨[], .taken⟩]⟩
        pendingReport 132).group.flags = false :=
  ⟨by decide,
    ⟨rfl,
      ((mld_waitmsg_already_scheduled (nuttx false) oneDev pendingReport 132
        (by decide) (by decide)).2 rfl 7 (by decide)).2.1.1,
      ((mld_waitmsg_already_scheduled (nuttx false) oneDev pendingReport 132
        (by decide) (by decide)).2 rfl 7 (by decide)).2.1.2.1⟩,
    ((mld_waitmsg_already_scheduled (nuttx false) oneDev pendingReport 132
        (by decide) (by decide)).2 rfl 7 (by decide)).2.2.2
      [⟨[], .interrupted⟩] [] [] .taken (by simp [WaitEvent.spurious]) (by simp)
      (Or.inl rfl)⟩

/-! ## The assertions -/

/-- When every wait ends with a unit taken, Interrupted or Canceled, the
assertion inside the loop never fails. -/
theorem wait_loop_not_asserted (cfg : Config) (ws : List WaitEvent) :
    ∀ (g : mld_group_s),
      (∀ e ∈ ws, e.wake = .taken ∨ e.wake = .interrupted ∨ e.wake = .canceled) →
      (wait_loop cfg ws g).status ≠ .asserted := by
  induction ws with
  | nil =>
    intro g _ h
    simp [wait_loop_nil] at h
  | cons e rest ih =>
    intro g hall h
    have hrest : ∀ e2 ∈ rest, e2.wake = .taken ∨ e2.wake = .interrupted ∨ e2.wake = .canceled :=
      fun e2 he2 => hall e2 (List.mem_cons_of_mem _ he2)
    have he := hall e (List.mem_cons_self _ _)
    obtain ⟨env, wake⟩ := e
    simp only at he
    rcases he with he | he | he <;> subst he
    · by_cases hs : 0 < (runEnv cfg env g).sem
      · rw [wait_loop_taken cfg env rest g hs] at h
        simp only [Run.seq_status, sched_loop] at h
        split at h
        · exact ih _ hrest h
        · simp at h
      · rw [wait_loop_starved cfg env rest g (by omega)] at h
        simp at h
    · rw [wait_loop_interrupted] at h
      exact ih _ hrest h
    · rw [wait_loop_canceled] at h
      exact ih _ hrest h

/-- C14: on a record with the waiting flag clear, the scheduled flag clear
and `ifindex > 0`, whatever the environment does to the record, when every
wait ends with success, Interrupted or Canceled, no assertion reached
during `mld_waitmsg` fails: the call is never stopped by a `DEBUGASSERT`
(for a build with `DEBUGASSERT` compiled in this says that the
single-waiter assertion, the two assertions of the nested `mld_schedmsg`
and the assertion on the error code of the wait all hold when reached). -/
theorem mld_waitmsg_assertions_hold (cfg : Config) (devs : Devices) (script : Script)
    (group : mld_group_s) (m : Nat)
    (hwait : IS_MLD_WAITMSG cfg group.flags = false)
    (hsched : IS_MLD_SCHEDMSG cfg group.flags = false)
    (hif : 0 < group.ifindex)
    (hwakes : ∀ e ∈ script.waits,
      e.wake = .taken ∨ e.wake = .interrupted ∨ e.wake = .canceled) :
    (mld_waitmsg cfg devs script group m).status ≠ .asserted := by
  have h : (cfg.assertions && IS_MLD_WAITMSG cfg group.flags) = false := by simp [hwait]
  have ha : schedmsg_asserts cfg (waiting cfg group) = true := by
    simp [schedmsg_asserts, waiting, hsched, hif]
  cases hdev : devs.netdev_findbyindex group.ifindex with
  | none =>
    rw [mld_waitmsg_nodev cfg devs script group m h ha hdev]
    simp
  | some dev =>
    rw [mld_waitmsg_scheduled cfg devs script group m dev h ha hdev]
    simp only [Run.seq_status, sched_loop]
    split
    · exact wait_loop_not_asserted cfg script.waits _ hwakes
    · simp

/-- C14 on the fresh record, `DEBUGASSERT` compiled in, with an interrupted
wait, a canceled wait during which the message is completed, a
rescheduling by another task and further waits. -/
theorem mld_waitmsg_assertions_hold_witness :
    (IS_MLD_WAITMSG (nuttx true) fresh.flags = false ∧
      IS_MLD_SCHEDMSG (nuttx true) fresh.flags = false ∧ 0 < fresh.ifindex) ∧
    (nuttx true).assertions = true ∧
    (mld_waitmsg (nuttx true) oneDev
      ⟨[], [⟨[], .interrupted⟩, ⟨[.complete, .schedule 132], .canceled⟩, ⟨[], .taken⟩,
            ⟨[.complete], .taken⟩]⟩ fresh 131).status = .returned 0 ∧
    (mld_waitmsg (nuttx true) oneDev
      ⟨[], [⟨[], .interrupted⟩, ⟨[.complete, .schedule 132], .canceled⟩, ⟨[], .taken⟩,
            ⟨[.complete], .taken⟩]⟩ fresh 131).status ≠ .asserted :=
  ⟨by decide, rfl, by decide,
    mld_waitmsg_assertions_hold (nuttx true) oneDev
      ⟨[], [⟨[], .interrupted⟩, ⟨[.complete, .schedule 132], .canceled⟩, ⟨[], .taken⟩,
            ⟨[.complete], .taken⟩]⟩ fresh 131 (by decide) (by decide) (by decide)
      (by simp)⟩

/-! ## A wait that fails with another error -/

/-- C15: with `DEBUGASSERT` compiled out, let a wait of `mld_waitmsg` (after
any number of spurious waits) fail with a value other than `-EINTR` and
`-ECANCELED`.  If the scheduled flag is still set right after that wait,
the call does not return there: it is in `net_lockedwait` again and goes
on as the loop does from the next wait, so a return comes after at least
one more wait, and with no further wait in the script the task is blocked.
If the flag is clear right after that wait, the call returns the value of
the failed wait, with both flags clear.  In no case does the call return
while the scheduled flag is set. -/
theorem mld_waitmsg_failed_wait (cfg : Config) (devs : Devices) (group : mld_group_s) (m : Nat)
    (pre rest : List WaitEvent) (env : List EnvAct) (n : Nat)
    (hs : scheduling_succeeded cfg devs group m = true)
    (hpre : ∀ e ∈ pre, e.spurious)
    (hoff : cfg.assertions = false)
    (h1 : Int.negSucc n ≠ -(cfg.EINTR : Int)) (h2 : Int.negSucc n ≠ -(cfg.ECANCELED : Int)) :
    (IS_MLD_SCHEDMSG cfg (runEnv cfg env (entered cfg group m)).flags = true →
      (mld_waitmsg cfg devs ⟨[], pre ++ ⟨env, .failed n⟩ :: rest⟩ group m).status
        = (wait_loop cfg rest (runEnv cfg env (entered cfg group m))).status ∧
      (mld_waitmsg cfg devs ⟨[], pre ++ ⟨env, .failed n⟩ :: rest⟩ group m).group
        = (wait_loop cfg rest (runEnv cfg env (entered cfg group m))).group ∧
      (mld_waitmsg cfg devs ⟨[], pre ++ ⟨env, .failed n⟩ :: rest⟩ group m).waits
        = pre.length + 1 + (wait_loop cfg rest (runEnv cfg env (entered cfg group m))).waits ∧
      (∀ ret,
        (mld_waitmsg cfg devs ⟨[], pre ++ ⟨env, .failed n⟩ :: rest⟩ group m).status
          = .returned ret →
        pre.length + 2
          ≤ (mld_waitmsg cfg devs ⟨[], pre ++ ⟨env, .failed n⟩ :: rest⟩ group m).waits) ∧
      (rest = [] →
        (mld_waitmsg cfg devs ⟨[], pre ++ ⟨env, .failed n⟩ :: rest⟩ group m).status
          = .blocked)) ∧
    (IS_MLD_SCHEDMSG cfg (runEnv cfg env (entered cfg group m)).flags = false →
      (mld_waitmsg cfg devs ⟨[], pre ++ ⟨env, .failed n⟩ :: rest⟩ group m).status
        = .returned (Int.negSucc n) ∧
      (mld_waitmsg cfg devs ⟨[], pre ++ ⟨env, .failed n⟩ :: rest⟩ group m).waits
        = pre.length + 1 ∧
      IS_MLD_SCHEDMSG cfg
        (mld_waitmsg cfg devs ⟨[], pre ++ ⟨env, .failed n⟩ :: rest⟩ group m).group.flags
        = false ∧
      IS_MLD_WAITMSG cfg
        (mld_waitmsg cfg devs ⟨[], pre ++ ⟨env, .failed n⟩ :: rest⟩ group m).group.flags
        = false) ∧
    (∀ ret,
      (mld_waitmsg cfg devs ⟨[], pre ++ ⟨env, .failed n⟩ :: rest⟩ group m).status
        = .returned ret →
      IS_MLD_SCHEDMSG cfg
        (mld_waitmsg cfg devs ⟨[], pre ++ ⟨env, .failed n⟩ :: rest⟩ group m).group.flags
        = false) := by
  obtain ⟨a1, a2, a3⟩ := mld_waitmsg_enters cfg devs (pre ++ ⟨env, .failed n⟩ :: rest) group m hs
  obtain ⟨b1, b2, b3⟩ := wait_loop_spurious cfg pre (⟨env, .failed n⟩ :: rest) hpre
    (entered cfg group m)
  have hbrk := wait_loop_failed_break cfg env n rest (entered cfg group m) hoff h1 h2
  refine ⟨fun hset => ?_, fun hclr => ?_, fun ret hret => ?_⟩
  · have hst : (mld_waitmsg cfg devs ⟨[], pre ++ ⟨env, .failed n⟩ :: rest⟩ group m).status
        = (wait_loop cfg rest (runEnv cfg env (entered cfg group m))).status := by
      rw [a1, b1, hbrk]
      simp [sched_loop, hset]
    have hwt : (mld_waitmsg cfg devs ⟨[], pre ++ ⟨env, .failed n⟩ :: rest⟩ group m).waits
        = pre.length + 1 + (wait_loop cfg rest (runEnv cfg env (entered cfg group m))).waits := by
      rw [a3, b3, hbrk]
      simp [sched_loop, hset]
      omega
    refine ⟨hst, ?_, hwt, ?_, ?_⟩
    · rw [a2, b2, hbrk]
      simp [sched_loop, hset]
    · intro ret hret
      rw [hst] at hret
      have hpos := (wait_loop_returned_last cfg rest _ ret hret).1
      rw [hwt]
      omega
    · intro hrest
      rw [hst, hrest, wait_loop_nil]
  · refine ⟨?_, ?_, ?_, ?_⟩
    · rw [a1, b1, hbrk]
      simp [sched_loop, hclr]
    · rw [a3, b3, hbrk]
      simp [sched_loop, hclr]
    · rw [a2, b2, hbrk]
      simp [sched_loop, hclr]
    · rw [a2, b2, hbrk]
      simp [sched_loop, hclr]
  · rw [a1] at hret
    rw [a2]
    exact (wait_loop_returned cfg _ _ ret hret).1

/-- C15 on a run without `DEBUGASSERT` whose first wait fails with `-22`
while the message is still scheduled: the wait is issued again, and the
call returns `OK` after the wait during which the message is completed. -/
theorem mld_waitmsg_failed_wait_witness :
    (scheduling_succeeded (nuttx false) oneDev fresh 131 = true ∧
      (nuttx false).assertions = false ∧
      Int.negSucc 21 ≠ -((nuttx false).EINTR : Int) ∧
      Int.negSucc 21 ≠ -((nuttx false).ECANCELED : Int)) ∧
    IS_MLD_SCHEDMSG (nuttx false)
      (runEnv (nuttx false) [] (entered (nuttx false) fresh 131)).flags = true ∧
    (mld_waitmsg (nuttx false) oneDev
      ⟨[], [⟨[], .failed 21⟩, ⟨[.complete], .taken⟩]⟩ fresh 131).status = .returned 0 ∧
    2 ≤ (mld_waitmsg (nuttx false) oneDev
      ⟨[], [⟨[], .failed 21⟩, ⟨[.complete], .taken⟩]⟩ fresh 131).waits :=
  ⟨by decide, by decide, by decide,
    ((mld_waitmsg_failed_wait (nuttx false) oneDev fresh 131 [] [⟨[.complete], .taken⟩] [] 21
        (by decide) (by simp) rfl (by decide) (by decide)).1 (by decide)).2.2.2.1 0
      (by decide)⟩

/-! ## A poll run inside the notification -/

/-- C16: a successful `mld_schedmsg(group, m)` notifies the device only
after the record is updated: the record it hands over at the notification,
its last statement, has `msgtype = m` and the scheduled flag set, and
exactly the device found is notified.  In the enclosing `mld_waitmsg` the
writes that the driver makes inside the notification come after the two
writes of `mld_schedmsg` and start from that record, so a poll run there
sees the pending message.  And if that poll completes the message, the
call of `mld_waitmsg` returns `OK` with both flags clear without any
wait, whatever waits the script holds. -/
theorem mld_waitmsg_synchronous_poll (cfg : Config) (devs : Devices) (group : mld_group_s)
    (m : Nat) (hs : scheduling_succeeded cfg devs group m = true) :
    (∀ g0, (mld_schedmsg cfg devs g0 m).status = .returned OK →
      (mld_schedmsg cfg devs g0 m).group.msgtype = m ∧
      IS_MLD_SCHEDMSG cfg (mld_schedmsg cfg devs g0 m).group.flags = true ∧
      ∃ dev, devs.netdev_findbyindex g0.ifindex = some dev ∧
        (mld_schedmsg cfg devs g0 m).notified = [dev]) ∧
    (∀ script : Script,
      (mld_schedmsg cfg devs (waiting cfg group) m).group.msgtype = m ∧
      IS_MLD_SCHEDMSG cfg (mld_schedmsg cfg devs (waiting cfg group) m).group.flags = true ∧
      (mld_waitmsg cfg devs script group m).steps =
        ⟨.waitmsg, group, waiting cfg group⟩ ::
          (mld_schedmsg cfg devs (waiting cfg group) m).steps ++
          envSteps cfg script.txavail (mld_schedmsg cfg devs (waiting cfg group) m).group ++
          (sched_loop cfg script.waits OK (scheduled cfg script group m)).steps) ∧
    (∀ ws : List WaitEvent,
      (mld_waitmsg cfg devs ⟨[.complete], ws⟩ group m).status = .returned OK ∧
      (mld_waitmsg cfg devs ⟨[.complete], ws⟩ group m).waits = 0 ∧
      IS_MLD_SCHEDMSG cfg (mld_waitmsg cfg devs ⟨[.complete], ws⟩ group m).group.flags = false ∧
      IS_MLD_WAITMSG cfg (mld_waitmsg cfg devs ⟨[.complete], ws⟩ group m).group.flags
        = false) := by
  have hp : (cfg.ENODEV : Int) ≠ 0 := by
    have := cfg.ENODEV_pos
    omega
  obtain ⟨h, ha, dev, hdev⟩ := (scheduling_succeeded_iff cfg devs group m).mp hs
  refine ⟨fun g0 hok => ?_, fun script => ?_, fun ws => ?_⟩
  · cases ha0 : schedmsg_asserts cfg g0
    · rw [mld_schedmsg_asserted cfg devs g0 m ha0] at hok
      simp at hok
    · cases hdev0 : devs.netdev_findbyindex g0.ifindex with
      | none =>
        rw [mld_schedmsg_none cfg devs g0 m ha0 hdev0] at hok
        simp [OK, hp] at hok
      | some d =>
        rw [mld_schedmsg_some cfg devs g0 m d ha0 hdev0]
        simp
  · rw [mld_waitmsg_scheduled cfg devs script group m dev h ha hdev]
    rw [mld_schedmsg_some cfg devs (waiting cfg group) m dev ha hdev]
    simp
  · obtain ⟨e1, e2, e3⟩ := mld_waitmsg_of_succeeded cfg devs ⟨[.complete], ws⟩ group m hs
    rw [e1, e2, e3]
    have hg : scheduled cfg ⟨[.complete], ws⟩ group m = complete cfg (entered cfg group m) := rfl
    have hc : IS_MLD_SCHEDMSG cfg (scheduled cfg ⟨[.complete], ws⟩ group m).flags = false := by
      rw [hg]
      exact (complete_posts cfg _ (entered_flags cfg group m).2.1).1
    simp [sched_loop, hc]

/-- C16 on the fresh record with a driver that polls inside the
notification and completes the message: `OK` without a wait, although the
script holds none that could end. -/
theorem mld_waitmsg_synchronous_poll_witness :
    scheduling_succeeded (nuttx true) oneDev fresh 131 = true ∧
    (mld_waitmsg (nuttx true) oneDev ⟨[.complete], []⟩ fresh 131).status = .returned OK ∧
    (mld_waitmsg (nuttx true) oneDev ⟨[.complete], []⟩ fresh 131).waits = 0 ∧
    (mld_waitmsg (nuttx true) oneDev ⟨[.complete], []⟩ fresh 131).notified = [7] ∧
    (mld_waitmsg (nuttx true) oneDev ⟨[.complete], []⟩ fresh 131).steps.map Step.actor =
      [.waitmsg, .schedmsg, .schedmsg, .env .complete, .waitmsg] :=
  ⟨by decide,
    ((mld_waitmsg_synchronous_poll (nuttx true) oneDev fresh 131 (by decide)).2.2 []).1,
    ((mld_waitmsg_synchronous_poll (nuttx true) oneDev fresh 131 (by decide)).2.2 []).2.1,
    by decide, by decide⟩

/-! ## The call of `mld_schedmsg` with the driver inside the notification -/

/-- On the success path the call is the statements of the function
followed by the writes of the driver. -/
theorem mld_schedmsg_call_some (cfg : Config) (devs : Devices) (txavail : List EnvAct)
    (g : mld_group_s) (m dev : Nat)
    (h : schedmsg_asserts cfg g = true) (hdev : devs.netdev_findbyindex g.ifindex = some dev) :
    mld_schedmsg_call cfg devs txavail g m =
      Run.seq (mld_schedmsg cfg devs g m)
        ⟨.returned OK, runEnv cfg txavail (mld_schedmsg cfg devs g m).group,
          envSteps cfg txavail (mld_schedmsg cfg devs g m).group, [], 0⟩ := by
  simp [mld_schedmsg_call, mld_schedmsg_some cfg devs g m dev h hdev]

/-- The record on which the loop of `mld_waitmsg` makes its first test is
the record that the nested call of `mld_schedmsg` returns with. -/
theorem scheduled_eq_call (cfg : Config) (devs : Devices) (script : Script)
    (g : mld_group_s) (m : Nat) (hs : scheduling_succeeded cfg devs g m = true) :
    scheduled cfg script g m
      = (mld_schedmsg_call cfg devs script.txavail (waiting cfg g) m).group := by
  obtain ⟨_, ha, dev, hdev⟩ := (scheduling_succeeded_iff cfg devs g m).mp hs
  rw [mld_schedmsg_call_some cfg devs script.txavail (waiting cfg g) m dev ha hdev,
    mld_schedmsg_some cfg devs (waiting cfg g) m dev ha hdev]
  rfl

/-- C1 fails when the driver polls inside the notification and sends the
message there: on the fresh record (scheduled flag clear, interface 1,
device 7 found) `mld_schedmsg` returns `OK` and has notified the device
once, but the record it leaves has the scheduled flag clear and no longer
holds the message type 131. -/
theorem mld_schedmsg_call_counterexample :
    IS_MLD_SCHEDMSG (nuttx true) fresh.flags = false ∧ fresh.ifindex ≠ 0 ∧
    oneDev.netdev_findbyindex fresh.ifindex = some 7 ∧
    (mld_schedmsg_call (nuttx true) oneDev [.complete] fresh 131).status = .returned OK ∧
    (mld_schedmsg_call (nuttx true) oneDev [.complete] fresh 131).notified = [7] ∧
    IS_MLD_SCHEDMSG (nuttx true)
      (mld_schedmsg_call (nuttx true) oneDev [.complete] fresh 131).group.flags = false ∧
    (mld_schedmsg_call (nuttx true) oneDev [.complete] fresh 131).group.msgtype ≠ 131 := by
  decide

/-- C1 as amended: on a record whose scheduled flag is clear and whose
interface index is not zero, when the device lookup finds a device, the
call `mld_schedmsg(group, m)` returns `OK` and notifies that device exactly
once, whatever the driver does inside the notification; the record with
which the device is notified has `msgtype = m` and the scheduled flag set;
the writes of the call are the two of the function followed by those of
the driver, and the record on return is the notified record after the
writes of the driver.  So the call leaves the scheduled flag set unless
the driver performs a `complete` inside the notification, and it leaves
the record with `msgtype = m` and the scheduled flag set when the driver
leaves the record alone there. -/
theorem mld_schedmsg_call_ok (cfg : Config) (devs : Devices) (txavail : List EnvAct)
    (group : mld_group_s) (m dev : Nat)
    (hclear : IS_MLD_SCHEDMSG cfg group.flags = false)
    (hif : group.ifindex ≠ 0)
    (hdev : devs.netdev_findbyindex group.ifindex = some dev) :
    (mld_schedmsg_call cfg devs txavail group m).status = .returned OK ∧
    (mld_schedmsg_call cfg devs txavail group m).notified = [dev] ∧
    ((mld_schedmsg cfg devs group m).group.msgtype = m ∧
      IS_MLD_SCHEDMSG cfg (mld_schedmsg cfg devs group m).group.flags = true) ∧
    ((mld_schedmsg_call cfg devs txavail group m).steps
        = (mld_schedmsg cfg devs group m).steps
            ++ envSteps cfg txavail (mld_schedmsg cfg devs group m).group ∧
      (mld_schedmsg_call cfg devs txavail group m).group
        = runEnv cfg txavail (mld_schedmsg cfg devs group m).group) ∧
    (EnvAct.complete ∉ txavail →
      IS_MLD_SCHEDMSG cfg (mld_schedmsg_call cfg devs txavail group m).group.flags = true) ∧
    (txavail = [] →
      (mld_schedmsg_call cfg devs txavail group m).group.msgtype = m ∧
      IS_MLD_SCHEDMSG cfg (mld_schedmsg_call cfg devs txavail group m).group.flags = true) := by
  have ha : schedmsg_asserts cfg group = true := by
    simp [schedmsg_asserts, hclear, Nat.pos_of_ne_zero hif]
  have hm : (mld_schedmsg cfg devs group m).group.msgtype = m ∧
      IS_MLD_SCHEDMSG cfg (mld_schedmsg cfg devs group m).group.flags = true := by
    rw [mld_schedmsg_some cfg devs group m dev ha hdev]
    simp
  have hn : (mld_schedmsg cfg devs group m).notified = [dev] := by
    rw [mld_schedmsg_some cfg devs group m dev ha hdev]
  rw [mld_schedmsg_call_some cfg devs txavail group m dev ha hdev]
  refine ⟨rfl, by simp [hn], hm, ⟨rfl, rfl⟩, fun hno => ?_, fun hnil => ?_⟩
  · exact runEnv_keeps_scheduled cfg txavail _ hm.2 hno
  · subst hnil
    exact hm

/-- C1 as amended, at the fresh record of interface 1 with device 7 and a
driver that defers the poll: `OK`, one notification, and the record left
with the message type 131 and the scheduled flag set. -/
theorem mld_schedmsg_call_ok_witness :
    (IS_MLD_SCHEDMSG (nuttx true) fresh.flags = false ∧ fresh.ifindex ≠ 0 ∧
      oneDev.netdev_findbyindex fresh.ifindex = some 7) ∧
    (mld_schedmsg_call (nuttx true) oneDev [] fresh 131).status = .returned OK ∧
    (mld_schedmsg_call (nuttx true) oneDev [] fresh 131).notified = [7] ∧
    (mld_schedmsg_call (nuttx true) oneDev [] fresh 131).group.msgtype = 131 ∧
    IS_MLD_SCHEDMSG (nuttx true)
      (mld_schedmsg_call (nuttx true) oneDev [] fresh 131).group.flags = true :=
  ⟨by decide,
    (mld_schedmsg_call_ok (nuttx true) oneDev [] fresh 131 7
      (by decide) (by decide) (by decide)).1,
    (mld_schedmsg_call_ok (nuttx true) oneDev [] fresh 131 7
      (by decide) (by decide) (by decide)).2.1,
    ((mld_schedmsg_call_ok (nuttx true) oneDev [] fresh 131 7
      (by decide) (by decide) (by decide)).2.2.2.2.2 rfl).1,
    ((mld_schedmsg_call_ok (nuttx true) oneDev [] fresh 131 7
      (by decide) (by decide) (by decide)).2.2.2.2.2 rfl).2⟩

end MLD

namespace STM32PWM

/-! ## Multi-channel mode -/

theorem countP_one (f : Nat → Bool) :
    List.countP f [1] = (if f 1 then 1 else 0) := by
  cases h1 : f 1 <;> simp [List.countP_cons, h1]

theorem countP_two (f : Nat → Bool) :
    List.countP f [1, 2] = (if f 1 then 1 else 0) + (if f 2 then 1 else 0) := by
  cases h1 : f 1 <;> cases h2 : f 2 <;> simp [List.countP_cons, h1, h2]

theorem countP_four (f : Nat → Bool) :
    List.countP f [1, 2, 3, 4] =
      (if f 1 then 1 else 0) + (if f 2 then 1 else 0) +
      (if f 3 then 1 else 0) + (if f 4 then 1 else 0) := by
  cases h1 : f 1 <;> cases h2 : f 2 <;> cases h3 : f 3 <;> cases h4 : f 4 <;>
    simp [List.countP_cons, h1, h2, h3, h4]

/-- The sum of the timer is the number of channels the configuration
defines for it. -/
theorem PWM_TIM_NCHANNELS_eq (cfg : Configuration) (n : Nat) (hn : n ∈ timers) :
    PWM_TIM_NCHANNELS cfg n = some (defined_channels cfg n) := by
  simp only [timers, List.mem_cons, List.mem_singleton, List.not_mem_nil, or_false] at hn
  rcases hn with h | h | h | h | h | h | h | h | h | h | h | h | h | h | h <;> subst h <;>
    simp [PWM_TIM_NCHANNELS, defined_channels, timer_channels, PWM_TIM_CHANNEL, List.range',
      countP_one, countP_two, countP_four]

theorem defined_channels_le (cfg : Configuration) (n : Nat) :
    defined_channels cfg n ≤ timer_channels n := by
  unfold defined_channels
  have h := List.countP_le_length (cfg.STM32_TIM_CHANNELk n) (l := List.range' 1 (timer_channels n))
  simpa using h

/-- C18: in multi-channel mode `PWM_TIMn_NCHANNELS` of every timer of the
header is the number of `CONFIG_STM32_TIMn_CHANNELk` that are defined
among the channels of that timer, so it is at most 4 for timers 1-5 and 8,
at most 2 for timers 9, 12 and 15 and at most 1 for timers 10, 11, 13, 14,
16 and 17.  This is the value of the `#define` for every configuration;
and whenever the body of the header is compiled in multi-channel mode
(`CONFIG_PWM_MULTICHAN` set and some timer enabled for PWM) the header
defines it so, without any `#error`. -/
theorem multichannel_nchannels (cfg : Configuration) (n : Nat) (hn : n ∈ timers) :
    PWM_TIM_NCHANNELS cfg n = some (defined_channels cfg n) ∧
    (n ∈ [1, 2, 3, 4, 5, 8] ∨ n ∈ [9, 12, 15] ∨ n ∈ [10, 11, 13, 14, 16, 17]) ∧
    (n ∈ [1, 2, 3, 4, 5, 8] → timer_channels n = 4 ∧ defined_channels cfg n ≤ 4) ∧
    (n ∈ [9, 12, 15] → timer_channels n = 2 ∧ defined_channels cfg n ≤ 2) ∧
    (n ∈ [10, 11, 13, 14, 16, 17] → timer_channels n = 1 ∧ defined_channels cfg n ≤ 1) ∧
    (cfg.PWM_MULTICHAN = true → any_TIM_PWM cfg = true →
      stm32_pwm_h cfg = .defined (multi_block cfg) ∧
      (multi_block cfg n).NCHANNELS = some (defined_channels cfg n)) := by
  have hle := defined_channels_le cfg n
  have heq := PWM_TIM_NCHANNELS_eq cfg n hn
  refine ⟨heq, ?_, ?_, ?_, ?_, ?_⟩
  · simp only [timers, List.mem_cons, List.mem_singleton, List.not_mem_nil, or_false] at hn
    rcases hn with h | h | h | h | h | h | h | h | h | h | h | h | h | h | h <;> subst h <;>
      decide
  · intro h
    have ht : timer_channels n = 4 := by simp [timer_channels, h]
    exact ⟨ht, ht ▸ hle⟩
  · intro h
    have ht : timer_channels n = 2 := by
      simp only [List.mem_cons, List.mem_singleton, List.not_mem_nil, or_false] at h
      rcases h with h | h | h <;> subst h <;> decide
    exact ⟨ht, ht ▸ hle⟩
  · intro h
    have ht : timer_channels n = 1 := by
      simp only [List.mem_cons, List.mem_singleton, List.not_mem_nil, or_false] at h
      rcases h with h | h | h | h | h | h <;> subst h <;> decide
    exact ⟨ht, ht ▸ hle⟩
  · intro hm hany
    refine ⟨?_, heq⟩
    simp [stm32_pwm_h, hm, hany]

/-- C18 on a configuration with channels 1, 2 and 4 of timer 1 defined:
`PWM_TIM1_NCHANNELS` is 3. -/
theorem multichannel_nchannels_witness :
    1 ∈ timers ∧
    PWM_TIM_NCHANNELS multiChannel 1 = some 3 ∧
    defined_channels multiChannel 1 = 3 ∧
    (stm32_pwm_h multiChannel).diagnostic = none ∧
    (multi_block multiChannel 1).NCHANNELS = some (defined_channels multiChannel 1) :=
  ⟨by decide, by decide, by decide, by decide,
    ((multichannel_nchannels multiChannel 1 (by decide)).2.2.2.2.2 rfl (by decide)).2⟩

/-! ## Single-channel mode -/

/-- The values that the block of a timer tests for are the numbers of its
channels. -/
theorem mem_tested_values (n : Nat) (hn : n ∈ timers) (v : Int) :
    v ∈ tested_values n ↔ 1 ≤ v ∧ v ≤ (timer_channels n : Int) := by
  simp only [timers, List.mem_cons, List.mem_singleton, List.not_mem_nil, or_false] at hn
  rcases hn with h | h | h | h | h | h | h | h | h | h | h | h | h | h | h <;> subst h <;>
    simp [tested_values, timer_channels] <;> omega

/-- A timer enabled for PWM is one of the timers of the header. -/
theorem mem_timers_of_TIM_PWM (cfg : Configuration) (n : Nat) (h : TIM_PWM cfg n = true) :
    n ∈ timers := by
  simp [TIM_PWM] at h
  exact h.1.1

/-- In single-channel mode an `#error` in the block of an enabled timer
stops the compilation of the header. -/
theorem rejected_of_block (cfg : Configuration) (n : Nat) (d : Diagnostic)
    (hsingle : cfg.PWM_MULTICHAN = false) (hn : TIM_PWM cfg n = true)
    (hd : diagnostic (single_block cfg n) = some d) :
    ∃ d2, stm32_pwm_h cfg = .rejected d2 := by
  have hmem := mem_timers_of_TIM_PWM cfg n hn
  have hany : any_TIM_PWM cfg = true := by
    simp only [any_TIM_PWM, List.any_eq_true]
    exact ⟨n, hmem, hn⟩
  cases hm : cfg.STM32_PWM_MULTICHAN
  · cases hf : timers.findSome? (fun n => diagnostic (single_block cfg n)) with
    | none =>
      rw [List.findSome?_eq_none_iff] at hf
      have := hf n hmem
      rw [hd] at this
      cases this
    | some d2 =>
      exact ⟨d2, by simp [stm32_pwm_h, hany, hm, hsingle, hf]⟩
  · exact ⟨.multichan_not_set, by simp [stm32_pwm_h, hany, hm, hsingle]⟩

/-- The value compared is the configured value itself when that fits in
64 bits without sign. -/
theorem pp_value_of_small (v : Int) (h0 : 0 ≤ v) (h1 : v < 18446744073709551616) :
    pp_value v = v := by
  unfold pp_value
  omega

/-- C17 fails in three ways.  Timer 9, which has two channels, enabled for
PWM with `CONFIG_STM32_TIM9_CHANNEL` set to 3, a value in {1,..,4}: the
header stops at "Unsupported value of CONFIG_STM32_TIM9_CHANNEL".  Timer 1
with `CONFIG_STM32_TIM1_CHANNEL` set to 2^64 + 1, a value outside
{1,..,4}: the comparison is made in 64 bits, the value passes `== 1` and
is accepted as channel 1.  Timer 1 with `CONFIG_STM32_TIM1_CHANNEL` set to
1 in a configuration that defines `CONFIG_STM32_TIM1_CHANNEL2` itself: the
header does not undefine it, so two of the `CONFIG_STM32_TIM1_CHANNELk`
are defined, not exactly one. -/
theorem single_channel_value_counterexample :
    ((singleChannel 9 (some 3)).PWM_MULTICHAN = false ∧
      TIM_PWM (singleChannel 9 (some 3)) 9 = true ∧
      (singleChannel 9 (some 3)).STM32_TIM_CHANNEL 9 = some 3 ∧
      diagnostic (single_block (singleChannel 9 (some 3)) 9) = some (.channel_unsupported 9) ∧
      (stm32_pwm_h (singleChannel 9 (some 3))).diagnostic = some (.channel_unsupported 9)) ∧
    ((singleChannel 1 (some 18446744073709551617)).PWM_MULTICHAN = false ∧
      TIM_PWM (singleChannel 1 (some 18446744073709551617)) 1 = true ∧
      (singleChannel 1 (some 18446744073709551617)).STM32_TIM_CHANNEL 1
        = some 18446744073709551617 ∧
      (stm32_pwm_h (singleChannel 1 (some 18446744073709551617))).diagnostic = none ∧
      diagnostic (single_block (singleChannel 1 (some 18446744073709551617)) 1) = none ∧
      (defs_of (singleChannel 1 (some 18446744073709551617)) 1
        (single_block (singleChannel 1 (some 18446744073709551617)) 1)).CHANNELk 1 = true) ∧
    (presetChannel.PWM_MULTICHAN = false ∧
      TIM_PWM presetChannel 1 = true ∧
      presetChannel.STM32_TIM_CHANNEL 1 = some 1 ∧
      (stm32_pwm_h presetChannel).diagnostic = none ∧
      (defs_of presetChannel 1 (single_block presetChannel 1)).CHANNELk 1 = true ∧
      (defs_of presetChannel 1 (single_block presetChannel 1)).CHANNELk 2 = true) := by
  decide

/-- C17 as amended: in single-channel mode, for every timer `n` enabled for
PWM, every value of `CONFIG_STM32_TIMn_CHANNEL` from 1 to the number of
channels of the timer (4 for timers 1-5 and 8, 2 for timers 9, 12 and 15,
1 for timers 10, 11, 13, 14, 16 and 17) is accepted by the block of the
timer and selects exactly that channel: the header defines
`CONFIG_STM32_TIMn_CHkMODE` and `CONFIG_STM32_TIMn_CHANNELk` for `k` equal
to the value and for no other `k` (so exactly that one
`CONFIG_STM32_TIMn_CHANNELk` is defined when the configuration itself
defines none), and `PWM_TIMn_NCHANNELS` is 1; and when the header is
compiled without error the macros of the timer are those of its block.  A
missing value stops the compilation with an `#error`, and so does every
value outside that range that fits in 64 bits.  In general the value is
compared modulo 2^64: it is accepted, as the channel it reduces to, when
its residue is in that range, and rejected otherwise. -/
theorem single_channel_value (cfg : Configuration) (n : Nat)
    (hsingle : cfg.PWM_MULTICHAN = false) (hn : TIM_PWM cfg n = true) :
    (∀ v : Int, cfg.STM32_TIM_CHANNEL n = some v → 1 ≤ v → v ≤ (timer_channels n : Int) →
      diagnostic (single_block cfg n) = none ∧
      (defs_of cfg n (single_block cfg n)).NCHANNELS = some 1 ∧
      (∀ k : Nat, (defs_of cfg n (single_block cfg n)).CHkMODE k = true ↔ (k : Int) = v) ∧
      (∀ k : Nat, (defs_of cfg n (single_block cfg n)).CHANNELk k = true ↔
        ((k : Int) = v ∨ cfg.STM32_TIM_CHANNELk n k = true)) ∧
      ((∀ k, cfg.STM32_TIM_CHANNELk n k = false) →
        ∀ k : Nat, (defs_of cfg n (single_block cfg n)).CHANNELk k = true ↔ (k : Int) = v) ∧
      (∀ tm, stm32_pwm_h cfg = .defined tm → tm n = defs_of cfg n (single_block cfg n))) ∧
    (cfg.STM32_TIM_CHANNEL n = none →
      diagnostic (single_block cfg n) = some (.channel_missing n) ∧
      ∃ d, stm32_pwm_h cfg = .rejected d) ∧
    (∀ v : Int, cfg.STM32_TIM_CHANNEL n = some v → (v < 1 ∨ (timer_channels n : Int) < v) →
      -9223372036854775808 ≤ v → v < 18446744073709551616 →
      diagnostic (single_block cfg n) = some (.channel_unsupported n) ∧
      ∃ d, stm32_pwm_h cfg = .rejected d) ∧
    (∀ v : Int, cfg.STM32_TIM_CHANNEL n = some v →
      1 ≤ pp_value v → pp_value v ≤ (timer_channels n : Int) →
      diagnostic (single_block cfg n) = none ∧
      (defs_of cfg n (single_block cfg n)).NCHANNELS = some 1 ∧
      (∀ k : Nat,
        (defs_of cfg n (single_block cfg n)).CHkMODE k = true ↔ (k : Int) = pp_value v) ∧
      (∀ k : Nat, (defs_of cfg n (single_block cfg n)).CHANNELk k = true ↔
        ((k : Int) = pp_value v ∨ cfg.STM32_TIM_CHANNELk n k = true))) ∧
    (∀ v : Int, cfg.STM32_TIM_CHANNEL n = some v →
      (pp_value v < 1 ∨ (timer_channels n : Int) < pp_value v) →
      diagnostic (single_block cfg n) = some (.channel_unsupported n) ∧
      ∃ d, stm32_pwm_h cfg = .rejected d) ∧
    (timer_channels n = 4 ∧ n ∈ [1, 2, 3, 4, 5, 8] ∨
     timer_channels n = 2 ∧ n ∈ [9, 12, 15] ∨
     timer_channels n = 1 ∧ n ∈ [10, 11, 13, 14, 16, 17]) := by
  have hmem := mem_timers_of_TIM_PWM cfg n hn
  have hany : any_TIM_PWM cfg = true := by
    simp only [any_TIM_PWM, List.any_eq_true]
    exact ⟨n, hmem, hn⟩
  have hch : (timer_channels n : Int) ≤ 4 := by
    simp only [timers, List.mem_cons, List.mem_singleton, List.not_mem_nil, or_false] at hmem
    rcases hmem with h | h | h | h | h | h | h | h | h | h | h | h | h | h | h <;> subst h <;>
      decide
  -- the block of the timer when the compared value is one of those tested
  have block : ∀ v : Int, cfg.STM32_TIM_CHANNEL n = some v →
      1 ≤ pp_value v → pp_value v ≤ (timer_channels n : Int) →
      single_block cfg n =
        .ok { CHANNELk := fun k => decide ((k : Int) = pp_value v) || cfg.STM32_TIM_CHANNELk n k
              CHkMODE := fun k => decide ((k : Int) = pp_value v)
              PWM_CHANNELk := fun _ => none
              NCHANNELS := some 1 } := by
    intro v hv h1 h2
    have ht : pp_value v ∈ tested_values n := (mem_tested_values n hmem _).mpr ⟨h1, h2⟩
    simp [single_block, hn, hv, ht]
  -- and when it is none of them
  have reject : ∀ v : Int, cfg.STM32_TIM_CHANNEL n = some v →
      (pp_value v < 1 ∨ (timer_channels n : Int) < pp_value v) →
      diagnostic (single_block cfg n) = some (.channel_unsupported n) ∧
      ∃ d, stm32_pwm_h cfg = .rejected d := by
    intro v hv hout
    have ht : pp_value v ∉ tested_values n := by
      rw [mem_tested_values n hmem _]
      omega
    have hb : diagnostic (single_block cfg n) = some (.channel_unsupported n) := by
      simp [single_block, hn, hv, ht, diagnostic]
    exact ⟨hb, rejected_of_block cfg n _ hsingle hn hb⟩
  refine ⟨fun v hv h1 h2 => ?_, fun hv => ?_, fun v hv hout hlo hhi => ?_,
    fun v hv h1 h2 => ?_, reject, ?_⟩
  · have hp : pp_value v = v := pp_value_of_small v (by omega) (by omega)
    have hb := block v hv (by rw [hp]; exact h1) (by rw [hp]; exact h2)
    rw [hp] at hb
    rw [hb]
    refine ⟨rfl, rfl, fun k => by simp [defs_of], fun k => by simp [defs_of], fun hno k => ?_,
      fun tm htm => ?_⟩
    · simp [defs_of, hno k]
    · rw [← hb]
      unfold stm32_pwm_h at htm
      simp only [hany, hsingle, Bool.not_true, Bool.false_eq_true, if_false, Bool.not_false,
        Bool.and_true] at htm
      split at htm
      · cases htm
      · split at htm
        · cases htm
        · simp only [Outcome.defined.injEq] at htm
          rw [← htm]
  · have hb : diagnostic (single_block cfg n) = some (.channel_missing n) := by
      simp [single_block, hn, hv, diagnostic]
    exact ⟨hb, rejected_of_block cfg n _ hsingle hn hb⟩
  · apply reject v hv
    unfold pp_value
    omega
  · rw [block v hv h1 h2]
    exact ⟨rfl, rfl, fun k => by simp [defs_of], fun k => by simp [defs_of]⟩
  · simp only [timers, List.mem_cons, List.mem_singleton, List.not_mem_nil, or_false] at hmem
    rcases hmem with h | h | h | h | h | h | h | h | h | h | h | h | h | h | h <;> subst h <;>
      decide

/-- C17 as amended, for timer 9 with `CONFIG_STM32_TIM9_CHANNEL` set to 2:
the block is accepted, channel 2 and no other is selected, and
`PWM_TIM9_NCHANNELS` is 1. -/
theorem single_channel_value_witness :
    ((singleChannel 9 (some 2)).PWM_MULTICHAN = false ∧
      TIM_PWM (singleChannel 9 (some 2)) 9 = true) ∧
    (stm32_pwm_h (singleChannel 9 (some 2))).diagnostic = none ∧
    diagnostic (single_block (singleChannel 9 (some 2)) 9) = none ∧
    (defs_of (singleChannel 9 (some 2)) 9
      (single_block (singleChannel 9 (some 2)) 9)).NCHANNELS = some 1 ∧
    (∀ k : Nat, (defs_of (singleChannel 9 (some 2)) 9
      (single_block (singleChannel 9 (some 2)) 9)).CHANNELk k = true ↔ (k : Int) = 2) :=
  ⟨by decide, by decide,
    ((single_channel_value (singleChannel 9 (some 2)) 9 rfl (by decide)).1 2 rfl
      (by decide) (by decide)).1,
    ((single_channel_value (singleChannel 9 (some 2)) 9 rfl (by decide)).1 2 rfl
      (by decide) (by decide)).2.1,
    ((single_channel_value (singleChannel 9 (some 2)) 9 rfl (by decide)).1 2 rfl
      (by decide) (by decide)).2.2.2.2.1 (fun _ => rfl)⟩

end STM32PWM
